import Mathlib

/-!
Shallow embedding of `src/services/dataProcessor.ts` (the financial-data
transform pipeline of the riyadh-fmcg repository) and proofs about it.

JavaScript numbers are IEEE-754 doubles; the pipeline only observes them
through exact arithmetic on decimal inputs, strict comparison with `0`,
and the special values `NaN` / `±Infinity` that `parseFloat` can yield.
We model them by `JSNum`: a finite value carried exactly as a rational,
a signed infinity, or NaN.  Negative zero is identified with zero (the
pipeline never distinguishes them: `-0 === 0` in JavaScript).

Arithmetic on finite values is exact rational arithmetic: IEEE-754
rounding, and the overflow of finite operations or of huge decimal
literals to ±Infinity, are not modelled.  The theorems below therefore
state the structural behaviour of the pipeline — branching on null and
on `=== 0`, neighbour selection, formula shape, ordering, error
propagation — and no theorem asserts finiteness of derived values.
-/

namespace FMCG

/-- Model of a JavaScript number as observed by the pipeline: a finite
value (exact rational), a signed infinity, or NaN. -/
inductive JSNum where
  | num (q : ℚ)
  | inf (pos : Bool)
  | nan
deriving DecidableEq, Repr

namespace JSNum

/-- `Number.isFinite`. -/
def isFinite : JSNum → Bool
  | num _ => true
  | _ => false

/-- `Number.isNaN` / global `isNaN` on an already-converted number. -/
def isNaN : JSNum → Bool
  | nan => true
  | _ => false

/-- JavaScript strict comparison with the literal zero (`x === 0`).
NaN and the infinities are not equal to `0`. -/
def eqZero : JSNum → Bool
  | num q => q == 0
  | _ => false

/-- Unary minus on doubles (sans `-0`). -/
def neg : JSNum → JSNum
  | num q => num (-q)
  | inf p => inf (!p)
  | nan => nan

/-- Addition on doubles: NaN absorbs, opposite infinities give NaN,
an infinity absorbs any finite summand. -/
def add : JSNum → JSNum → JSNum
  | nan, _ => nan
  | _, nan => nan
  | inf p, inf q => if p = q then inf p else nan
  | inf p, num _ => inf p
  | num _, inf p => inf p
  | num a, num b => num (a + b)

/-- Subtraction on doubles, `a - b = a + (-b)`. -/
def sub (a b : JSNum) : JSNum := add a (neg b)

/-- Multiplication on doubles: NaN absorbs, `±∞ * 0 = NaN`, otherwise
infinities multiply by sign. -/
def mul : JSNum → JSNum → JSNum
  | nan, _ => nan
  | _, nan => nan
  | inf p, inf q => inf (p == q)
  | inf p, num a => if a = 0 then nan else inf (p == decide (0 < a))
  | num a, inf p => if a = 0 then nan else inf (p == decide (0 < a))
  | num a, num b => num (a * b)

/-- Division on doubles: NaN absorbs, `∞/∞ = NaN`, `∞/finite = ±∞`,
`finite/∞ = 0`, `finite/0` is `±∞` (or NaN for `0/0`), and otherwise
exact rational division. -/
def div : JSNum → JSNum → JSNum
  | nan, _ => nan
  | _, nan => nan
  | inf _, inf _ => nan
  | inf p, num a => inf (p == decide (0 ≤ a))
  | num _, inf _ => num 0
  | num a, num b =>
    if b = 0 then (if a = 0 then nan else inf (decide (0 ≤ a))) else num (a / b)

instance : Neg JSNum := ⟨neg⟩
instance : Add JSNum := ⟨add⟩
instance : Sub JSNum := ⟨sub⟩
instance : Mul JSNum := ⟨mul⟩
instance : Div JSNum := ⟨div⟩

end JSNum

/-! ### `parseFloat`

ECMAScript `parseFloat` skips leading whitespace, then reads the longest
prefix that is a valid `StrDecimalLiteral` — an optional sign followed by
either the keyword `Infinity` or decimal digits with optional fraction
and optional exponent — and ignores any trailing characters.  It returns
NaN when no such prefix exists.  Decimal values are represented exactly
(as rationals) in this model; the overflow of `parseFloat` to
`Infinity` on literals beyond double range (e.g. `1e309`) is not
modelled. -/

/-- Numeric value of a list of decimal digits, most significant first. -/
def digitsToNat (ds : List Char) : Nat :=
  ds.foldl (fun n c => n * 10 + (c.toNat - 48)) 0

/-- Value of an exponent's digit tail with optional sign; `0` when no
digits follow (then `parseFloat` stops before the `e` and the value is
unchanged, which multiplying by `10 ^ 0` also models). -/
def expDigitsVal (cs : List Char) : Int :=
  if cs.head? = some '+' then (digitsToNat (cs.tail.takeWhile Char.isDigit) : Int)
  else if cs.head? = some '-' then -(digitsToNat (cs.tail.takeWhile Char.isDigit) : Int)
  else (digitsToNat (cs.takeWhile Char.isDigit) : Int)

/-- Value contributed by an optional exponent part (`e`/`E`, optional
sign, digits) at the head of `cs`; `0` when absent. -/
def expValue (cs : List Char) : Int :=
  if cs.head? = some 'e' || cs.head? = some 'E' then expDigitsVal cs.tail else 0

/-- Longest prefix of `cs` forming an unsigned JavaScript decimal
literal: the keyword `Infinity`, or `digits [. digits] [exponent]`, or
`. digits [exponent]`.  `none` when no valid prefix exists (the decimal
point and exponent are consumed only when well-formed, as in the ECMA
`StrUnsignedDecimalLiteral` grammar). -/
def parseUnsignedDecimal (cs : List Char) : Option JSNum :=
  if cs.take 8 = ['I', 'n', 'f', 'i', 'n', 'i', 't', 'y'] then some (.inf true)
  else
    let intDs := cs.takeWhile Char.isDigit
    let rest1 := cs.dropWhile Char.isDigit
    let fracDs := if rest1.head? = some '.' then rest1.tail.takeWhile Char.isDigit else []
    let rest2 := if rest1.head? = some '.' then rest1.tail.dropWhile Char.isDigit else rest1
    if intDs = [] ∧ fracDs = [] then none
    else some (.num (((digitsToNat intDs : ℚ) + (digitsToNat fracDs : ℚ) / 10 ^ fracDs.length)
      * (10 : ℚ) ^ expValue rest2))

/-- Model of JavaScript `parseFloat`: skip leading whitespace, read an
optional sign and then the longest valid decimal-literal prefix; NaN
when none exists. -/
def jsParseFloat (s : String) : JSNum :=
  let cs := s.data.dropWhile Char.isWhitespace
  if cs.head? = some '+' then (parseUnsignedDecimal cs.tail).getD .nan
  else if cs.head? = some '-' then ((parseUnsignedDecimal cs.tail).map JSNum.neg).getD .nan
  else (parseUnsignedDecimal cs).getD .nan

/-- JavaScript `val.trim() === ''`: the string is empty or all
whitespace. -/
def isBlank (s : String) : Bool := s.data.all Char.isWhitespace

/-- `safeParseFloat(val, defaultValue)` from `dataProcessor.ts`: the
default when the field is `undefined`/`null` or blank after trimming,
otherwise the `parseFloat` of the raw string unless that is NaN, in
which case the default again.  Never throws. -/
def safeParseFloat (val : Option String) (defaultValue : Option JSNum) : Option JSNum :=
  match val with
  | none => defaultValue
  | some s =>
    if isBlank s then defaultValue
    else
      let n := jsParseFloat s
      if n.isNaN then defaultValue else some n

/-! ### `parseQuarter` -/

/-- The error message thrown for a malformed quarter label. -/
def quarterError (s : String) : String :=
  "Invalid Quarter format: \"" ++ s ++ "\". Expected format is \"Q1-2023\"."

/-- Result of parsing a quarter label. -/
structure PeriodKey where
  year : Int
  quarterIndex : Nat
  sortKey : ℚ
deriving DecidableEq, Repr

/-- Value of a decimal digit character. -/
def digitVal (c : Char) : Nat := c.toNat - 48

/-- The test `quarterStr.match(/^Q[1-4]-\d{4}$/)` of `parseQuarter`
together with the extraction that follows it on success: the label must
be exactly `Q<1-4>-<4 digits>`; the split on `-` then yields the quarter
digit after `Q` and the 4-digit year, both read with `parseInt`.
`none` models a failed regex match. -/
def parseQuarterAux (cs : List Char) : Option PeriodKey :=
  match cs with
  | ['Q', q, '-', a, b, c, d] =>
    if ('1' ≤ q && q ≤ '4') && (a.isDigit && b.isDigit && c.isDigit && d.isDigit) then
      let year : Nat := digitVal a * 1000 + digitVal b * 100 + digitVal c * 10 + digitVal d
      some ⟨(year : Int), digitVal q, (year : ℚ) + (digitVal q : ℚ) / 4⟩
    else none
  | _ => none

/-- Whether the label passes the guard of `parseQuarter` (the truthiness
test `!quarterStr` is subsumed by the regex, which rejects `""`). -/
def quarterPattern (s : String) : Bool := (parseQuarterAux s.data).isSome

/-- `parseQuarter` from `dataProcessor.ts`: reject (model of `throw`)
any label not matching `^Q[1-4]-\d{4}$`; otherwise return year, quarter
index and `sortKey = year + quarterIndex / 4`. -/
def parseQuarter (s : String) : Except String PeriodKey :=
  match parseQuarterAux s.data with
  | some pk => Except.ok pk
  | none => Except.error (quarterError s)

example : parseQuarter "Q1-2023" = Except.ok ⟨2023, 1, 2023 + 1 / 4⟩ := by
  with_unfolding_all rfl
example : parseQuarter "2023-Q1" = Except.error (quarterError "2023-Q1") := by
  with_unfolding_all rfl
example : jsParseFloat "12abc" = .num 12 := by with_unfolding_all decide
example : jsParseFloat "3.5 SAR" = .num (7 / 2) := by with_unfolding_all decide
example : jsParseFloat "Infinity" = .inf true := by with_unfolding_all decide
example : jsParseFloat "-2.5e1" = .num (-25) := by with_unfolding_all decide
example : jsParseFloat "x12" = .nan := by with_unfolding_all decide
example : jsParseFloat "  .5" = .num (1 / 2) := by with_unfolding_all decide

/-! ### The rows -/

/-- A raw input row (`RawDataRow`): the quarter label plus optional
string-valued columns.  `NetIncome` models the `'Net Income'` column;
an absent column is `none`. -/
structure RawDataRow where
  Quarter : String
  Region : Option String
  Product : Option String
  Revenue : Option String
  COGS : Option String
  OPEX : Option String
  Non_Cash_Adjustments : Option String
  NetIncome : Option String
  Plan_Revenue : Option String
  Plan_COGS : Option String
  Plan_OPEX : Option String
  Plan_Non_Cash_Adjustments : Option String
  Plan_NetIncome : Option String
deriving DecidableEq, Repr

/-- An output row (`ProcessedDataRow`).  `Option JSNum` models
`number | null` fields; `NetIncome` models `'Net Income'`. -/
structure ProcessedDataRow where
  id : String
  Quarter : String
  Year : Int
  quarterIndex : Nat
  sortKey : ℚ
  Region : String
  Product : String
  Revenue : JSNum
  COGS : JSNum
  OPEX : JSNum
  Non_Cash_Adjustments : JSNum
  NetIncome : JSNum
  plan_Revenue : Option JSNum
  plan_COGS : Option JSNum
  plan_OPEX : Option JSNum
  plan_Non_Cash_Adjustments : JSNum
  plan_NetIncome : Option JSNum
  grossProfit : JSNum
  grossMargin : JSNum
  opexMargin : JSNum
  EBITDA : JSNum
  EBITDA_Margin : JSNum
  netMargin : JSNum
  qoqRevenueGrowth : Option JSNum
  qoqNetIncomeGrowth : Option JSNum
  yoyRevenueGrowth : Option JSNum
  yoyNetIncomeGrowth : Option JSNum
  revVarAbs : Option JSNum
  revVarPerc : Option JSNum
  cogsVarAbs : Option JSNum
  cogsVarPerc : Option JSNum
  opexVarAbs : Option JSNum
  opexVarPerc : Option JSNum
  ebitdaPlan : Option JSNum
  ebitdaVarAbs : Option JSNum
  ebitdaVarPerc : Option JSNum
  netIncomeVarAbs : Option JSNum
  netIncomeVarPerc : Option JSNum
deriving DecidableEq, Repr

/-- JavaScript `row.Region || 'All'`: an absent or empty (falsy) string
defaults to `"All"`. -/
def orAll (v : Option String) : String :=
  match v with
  | some s => if s = "" then "All" else s
  | none => "All"

/-- The straight-line body of the first `map` of `processFinancialData`,
after `parseQuarter` has succeeded with `pk`: numeric coercion, derived
metrics and plan-vs-actual variances for one row at original position
`index`.  The `!` assertions of the source on `safeParseFloat` results
whose default is non-null are modelled by `Option.getD` with that same
default (the result is provably never `none` there).  Growth fields
start out null. -/
def normalizeRowCore (row : RawDataRow) (index : Nat) (pk : PeriodKey) : ProcessedDataRow :=
  let Revenue := (safeParseFloat row.Revenue (some (.num 0))).getD (.num 0)
  let COGS := (safeParseFloat row.COGS (some (.num 0))).getD (.num 0)
  let OPEX := (safeParseFloat row.OPEX (some (.num 0))).getD (.num 0)
  let Non_Cash_Adjustments :=
    (safeParseFloat row.Non_Cash_Adjustments (some (.num 0))).getD (.num 0)
  let NetIncome := safeParseFloat row.NetIncome none
  let finalNetIncome := match NetIncome with
    | none => Revenue - COGS - OPEX
    | some v => v
  let plan_Revenue := safeParseFloat row.Plan_Revenue none
  let plan_COGS := safeParseFloat row.Plan_COGS none
  let plan_OPEX := safeParseFloat row.Plan_OPEX none
  let plan_Non_Cash_Adjustments :=
    (safeParseFloat row.Plan_Non_Cash_Adjustments (some Non_Cash_Adjustments)).getD
      Non_Cash_Adjustments
  let plan_NetIncomeRaw := safeParseFloat row.Plan_NetIncome none
  let plan_NetIncome := match plan_NetIncomeRaw, plan_Revenue, plan_COGS, plan_OPEX with
    | none, some pr, some pc, some po => some (pr - pc - po)
    | raw, _, _, _ => raw
  let grossProfit := Revenue - COGS
  let grossMargin := if Revenue.eqZero then JSNum.num 0
    else grossProfit / Revenue * JSNum.num 100
  let opexMargin := if Revenue.eqZero then JSNum.num 0
    else OPEX / Revenue * JSNum.num 100
  let EBITDA := Revenue - COGS - OPEX + Non_Cash_Adjustments
  let EBITDA_Margin := if Revenue.eqZero then JSNum.num 0
    else EBITDA / Revenue * JSNum.num 100
  let netMargin := if Revenue.eqZero then JSNum.num 0
    else finalNetIncome / Revenue * JSNum.num 100
  let revVarAbs := plan_Revenue.map (fun p => Revenue - p)
  let revVarPerc := match plan_Revenue with
    | some p => if p.eqZero then none else some ((Revenue - p) / p * JSNum.num 100)
    | none => none
  let cogsVarAbs := plan_COGS.map (fun p => COGS - p)
  let cogsVarPerc := match plan_COGS with
    | some p => if p.eqZero then none else some ((COGS - p) / p * JSNum.num 100)
    | none => none
  let opexVarAbs := plan_OPEX.map (fun p => OPEX - p)
  let opexVarPerc := match plan_OPEX with
    | some p => if p.eqZero then none else some ((OPEX - p) / p * JSNum.num 100)
    | none => none
  let ebitdaPlan := match plan_Revenue, plan_COGS, plan_OPEX with
    | some pr, some pc, some po => some (pr - pc - po + plan_Non_Cash_Adjustments)
    | _, _, _ => none
  let ebitdaVarAbs := ebitdaPlan.map (fun p => EBITDA - p)
  let ebitdaVarPerc := match ebitdaPlan with
    | some p => if p.eqZero then none else some ((EBITDA - p) / p * JSNum.num 100)
    | none => none
  let netIncomeVarAbs := plan_NetIncome.map (fun p => finalNetIncome - p)
  let netIncomeVarPerc := match plan_NetIncome with
    | some p => if p.eqZero then none else some ((finalNetIncome - p) / p * JSNum.num 100)
    | none => none
  { id := row.Quarter ++ "-" ++ orAll row.Region ++ "-" ++ orAll row.Product ++ "-"
      ++ toString index
    Quarter := row.Quarter
    Year := pk.year
    quarterIndex := pk.quarterIndex
    sortKey := pk.sortKey
    Region := orAll row.Region
    Product := orAll row.Product
    Revenue := Revenue
    COGS := COGS
    OPEX := OPEX
    Non_Cash_Adjustments := Non_Cash_Adjustments
    NetIncome := finalNetIncome
    plan_Revenue := plan_Revenue
    plan_COGS := plan_COGS
    plan_OPEX := plan_OPEX
    plan_Non_Cash_Adjustments := plan_Non_Cash_Adjustments
    plan_NetIncome := plan_NetIncome
    grossProfit := grossProfit
    grossMargin := grossMargin
    opexMargin := opexMargin
    EBITDA := EBITDA
    EBITDA_Margin := EBITDA_Margin
    netMargin := netMargin
    qoqRevenueGrowth := none
    qoqNetIncomeGrowth := none
    yoyRevenueGrowth := none
    yoyNetIncomeGrowth := none
    revVarAbs := revVarAbs
    revVarPerc := revVarPerc
    cogsVarAbs := cogsVarAbs
    cogsVarPerc := cogsVarPerc
    opexVarAbs := opexVarAbs
    opexVarPerc := opexVarPerc
    ebitdaPlan := ebitdaPlan
    ebitdaVarAbs := ebitdaVarAbs
    ebitdaVarPerc := ebitdaVarPerc
    netIncomeVarAbs := netIncomeVarAbs
    netIncomeVarPerc := netIncomeVarPerc }

/-- One iteration of the first `map`: `parseQuarter` may throw, the rest
is `normalizeRowCore`. -/
def normalizeRow (row : RawDataRow) (index : Nat) : Except String ProcessedDataRow :=
  (parseQuarter row.Quarter).map (normalizeRowCore row index)

/-- The first `map` of `processFinancialData` over the raw rows with
their indices; the first thrown quarter-format error aborts the whole
batch (no partial results). -/
def normalizeAll (rows : List RawDataRow) (index : Nat) : Except String (List ProcessedDataRow) :=
  match rows with
  | [] => Except.ok []
  | r :: rs =>
    match normalizeRow r index with
    | Except.error e => Except.error e
    | Except.ok hd =>
      match normalizeAll rs (index + 1) with
      | Except.error e => Except.error e
      | Except.ok tl => Except.ok (hd :: tl)

/-- Body of the second `map`: fill the four growth fields of the row at
position `index` of the sorted array `arr`; all other fields pass
through.  `arr[index - 1]` is `undefined` for `index = 0` (JS `arr[-1]`). -/
def enrichRow (arr : List ProcessedDataRow) (index : Nat) (currentRow : ProcessedDataRow) :
    ProcessedDataRow :=
  let prevQuarter := if index = 0 then none else arr[index - 1]?
  let qoqRevenueGrowth := match prevQuarter with
    | some p =>
      if p.Revenue.eqZero then none
      else some ((currentRow.Revenue - p.Revenue) / p.Revenue * JSNum.num 100)
    | none => none
  let qoqNetIncomeGrowth := match prevQuarter with
    | some p =>
      if p.NetIncome.eqZero then none
      else some ((currentRow.NetIncome - p.NetIncome) / p.NetIncome * JSNum.num 100)
    | none => none
  let prevYearQuarter := arr.find? (fun d =>
    d.Year == currentRow.Year - 1 && d.quarterIndex == currentRow.quarterIndex &&
    d.Region == currentRow.Region && d.Product == currentRow.Product)
  let yoyRevenueGrowth := match prevYearQuarter with
    | some p =>
      if p.Revenue.eqZero then none
      else some ((currentRow.Revenue - p.Revenue) / p.Revenue * JSNum.num 100)
    | none => none
  let yoyNetIncomeGrowth := match prevYearQuarter with
    | some p =>
      if p.NetIncome.eqZero then none
      else some ((currentRow.NetIncome - p.NetIncome) / p.NetIncome * JSNum.num 100)
    | none => none
  { currentRow with
    qoqRevenueGrowth := qoqRevenueGrowth
    qoqNetIncomeGrowth := qoqNetIncomeGrowth
    yoyRevenueGrowth := yoyRevenueGrowth
    yoyNetIncomeGrowth := yoyNetIncomeGrowth }

/-- The second `map` of `processFinancialData`, over the sorted array
with indices. -/
def enrich (arr : List ProcessedDataRow) : List ProcessedDataRow :=
  arr.enum.map (fun p => enrichRow arr p.1 p.2)

/-- The comparator `(a, b) => a.sortKey - b.sortKey` used with the
(stable) JavaScript `Array.prototype.sort`. -/
def bySortKey (a b : ProcessedDataRow) : Bool := decide (a.sortKey ≤ b.sortKey)

/-- `processFinancialData`: normalize every row (aborting the batch on
the first invalid quarter label), stable-sort by ascending `sortKey`,
then fill the growth fields from the sorted sequence. -/
def processFinancialData (rawData : List RawDataRow) : Except String (List ProcessedDataRow) :=
  match normalizeAll rawData 0 with
  | Except.error e => Except.error e
  | Except.ok dataWithMetrics => Except.ok (enrich (dataWithMetrics.mergeSort bySortKey))

/-- A raw row with only the quarter label and the three required numeric
columns set, used for concrete test inputs. -/
def mkRow (q : String) (rev cogs opex : Option String) : RawDataRow :=
  ⟨q, none, none, rev, cogs, opex, none, none, none, none, none, none, none⟩

/-! ### Projection lemmas for `normalizeRowCore` -/

section CoreProjections

variable (row : RawDataRow) (i : Nat) (pk : PeriodKey)

@[simp] theorem core_Year : (normalizeRowCore row i pk).Year = pk.year := rfl

@[simp] theorem core_quarterIndex : (normalizeRowCore row i pk).quarterIndex = pk.quarterIndex :=
  rfl

@[simp] theorem core_sortKey : (normalizeRowCore row i pk).sortKey = pk.sortKey := rfl

@[simp] theorem core_Quarter : (normalizeRowCore row i pk).Quarter = row.Quarter := rfl

@[simp] theorem core_Region : (normalizeRowCore row i pk).Region = orAll row.Region := rfl

@[simp] theorem core_Product : (normalizeRowCore row i pk).Product = orAll row.Product := rfl

@[simp] theorem core_id : (normalizeRowCore row i pk).id =
    row.Quarter ++ "-" ++ orAll row.Region ++ "-" ++ orAll row.Product ++ "-" ++ toString i := rfl

@[simp] theorem core_Revenue : (normalizeRowCore row i pk).Revenue =
    (safeParseFloat row.Revenue (some (.num 0))).getD (.num 0) := rfl

@[simp] theorem core_COGS : (normalizeRowCore row i pk).COGS =
    (safeParseFloat row.COGS (some (.num 0))).getD (.num 0) := rfl

@[simp] theorem core_OPEX : (normalizeRowCore row i pk).OPEX =
    (safeParseFloat row.OPEX (some (.num 0))).getD (.num 0) := rfl

@[simp] theorem core_NCA : (normalizeRowCore row i pk).Non_Cash_Adjustments =
    (safeParseFloat row.Non_Cash_Adjustments (some (.num 0))).getD (.num 0) := rfl

theorem core_NetIncome : (normalizeRowCore row i pk).NetIncome =
    (match safeParseFloat row.NetIncome none with
      | none => (normalizeRowCore row i pk).Revenue - (normalizeRowCore row i pk).COGS
          - (normalizeRowCore row i pk).OPEX
      | some v => v) := rfl

@[simp] theorem core_plan_Revenue : (normalizeRowCore row i pk).plan_Revenue =
    safeParseFloat row.Plan_Revenue none := rfl

@[simp] theorem core_plan_COGS : (normalizeRowCore row i pk).plan_COGS =
    safeParseFloat row.Plan_COGS none := rfl

@[simp] theorem core_plan_OPEX : (normalizeRowCore row i pk).plan_OPEX =
    safeParseFloat row.Plan_OPEX none := rfl

@[simp] theorem core_plan_NCA : (normalizeRowCore row i pk).plan_Non_Cash_Adjustments =
    (safeParseFloat row.Plan_Non_Cash_Adjustments
      (some ((normalizeRowCore row i pk).Non_Cash_Adjustments))).getD
      ((normalizeRowCore row i pk).Non_Cash_Adjustments) := rfl

theorem core_plan_NetIncome : (normalizeRowCore row i pk).plan_NetIncome =
    (match safeParseFloat row.Plan_NetIncome none, (normalizeRowCore row i pk).plan_Revenue,
        (normalizeRowCore row i pk).plan_COGS, (normalizeRowCore row i pk).plan_OPEX with
      | none, some pr, some pc, some po => some (pr - pc - po)
      | raw, _, _, _ => raw) := rfl

theorem core_grossProfit : (normalizeRowCore row i pk).grossProfit =
    (normalizeRowCore row i pk).Revenue - (normalizeRowCore row i pk).COGS := rfl

theorem core_grossMargin : (normalizeRowCore row i pk).grossMargin =
    (if (normalizeRowCore row i pk).Revenue.eqZero then JSNum.num 0
      else (normalizeRowCore row i pk).grossProfit / (normalizeRowCore row i pk).Revenue
        * JSNum.num 100) := rfl

theorem core_opexMargin : (normalizeRowCore row i pk).opexMargin =
    (if (normalizeRowCore row i pk).Revenue.eqZero then JSNum.num 0
      else (normalizeRowCore row i pk).OPEX / (normalizeRowCore row i pk).Revenue
        * JSNum.num 100) := rfl

theorem core_EBITDA : (normalizeRowCore row i pk).EBITDA =
    (normalizeRowCore row i pk).Revenue - (normalizeRowCore row i pk).COGS
      - (normalizeRowCore row i pk).OPEX + (normalizeRowCore row i pk).Non_Cash_Adjustments := rfl

theorem core_EBITDA_Margin : (normalizeRowCore row i pk).EBITDA_Margin =
    (if (normalizeRowCore row i pk).Revenue.eqZero then JSNum.num 0
      else (normalizeRowCore row i pk).EBITDA / (normalizeRowCore row i pk).Revenue
        * JSNum.num 100) := rfl

theorem core_netMargin : (normalizeRowCore row i pk).netMargin =
    (if (normalizeRowCore row i pk).Revenue.eqZero then JSNum.num 0
      else (normalizeRowCore row i pk).NetIncome / (normalizeRowCore row i pk).Revenue
        * JSNum.num 100) := rfl

theorem core_revVarAbs : (normalizeRowCore row i pk).revVarAbs =
    ((normalizeRowCore row i pk).plan_Revenue).map
      (fun p => (normalizeRowCore row i pk).Revenue - p) := rfl

theorem core_revVarPerc : (normalizeRowCore row i pk).revVarPerc =
    (match (normalizeRowCore row i pk).plan_Revenue with
      | some p => if p.eqZero then none
          else some (((normalizeRowCore row i pk).Revenue - p) / p * JSNum.num 100)
      | none => none) := rfl

theorem core_cogsVarAbs : (normalizeRowCore row i pk).cogsVarAbs =
    ((normalizeRowCore row i pk).plan_COGS).map
      (fun p => (normalizeRowCore row i pk).COGS - p) := rfl

theorem core_cogsVarPerc : (normalizeRowCore row i pk).cogsVarPerc =
    (match (normalizeRowCore row i pk).plan_COGS with
      | some p => if p.eqZero then none
          else some (((normalizeRowCore row i pk).COGS - p) / p * JSNum.num 100)
      | none => none) := rfl

theorem core_opexVarAbs : (normalizeRowCore row i pk).opexVarAbs =
    ((normalizeRowCore row i pk).plan_OPEX).map
      (fun p => (normalizeRowCore row i pk).OPEX - p) := rfl

theorem core_opexVarPerc : (normalizeRowCore row i pk).opexVarPerc =
    (match (normalizeRowCore row i pk).plan_OPEX with
      | some p => if p.eqZero then none
          else some (((normalizeRowCore row i pk).OPEX - p) / p * JSNum.num 100)
      | none => none) := rfl

theorem core_ebitdaPlan : (normalizeRowCore row i pk).ebitdaPlan =
    (match (normalizeRowCore row i pk).plan_Revenue, (normalizeRowCore row i pk).plan_COGS,
        (normalizeRowCore row i pk).plan_OPEX with
      | some pr, some pc, some po =>
        some (pr - pc - po + (normalizeRowCore row i pk).plan_Non_Cash_Adjustments)
      | _, _, _ => none) := rfl

theorem core_ebitdaVarAbs : (normalizeRowCore row i pk).ebitdaVarAbs =
    ((normalizeRowCore row i pk).ebitdaPlan).map
      (fun p => (normalizeRowCore row i pk).EBITDA - p) := rfl

theorem core_ebitdaVarPerc : (normalizeRowCore row i pk).ebitdaVarPerc =
    (match (normalizeRowCore row i pk).ebitdaPlan with
      | some p => if p.eqZero then none
          else some (((normalizeRowCore row i pk).EBITDA - p) / p * JSNum.num 100)
      | none => none) := rfl

theorem core_netIncomeVarAbs : (normalizeRowCore row i pk).netIncomeVarAbs =
    ((normalizeRowCore row i pk).plan_NetIncome).map
      (fun p => (normalizeRowCore row i pk).NetIncome - p) := rfl

theorem core_netIncomeVarPerc : (normalizeRowCore row i pk).netIncomeVarPerc =
    (match (normalizeRowCore row i pk).plan_NetIncome with
      | some p => if p.eqZero then none
          else some (((normalizeRowCore row i pk).NetIncome - p) / p * JSNum.num 100)
      | none => none) := rfl

@[simp] theorem core_qoqRevenueGrowth : (normalizeRowCore row i pk).qoqRevenueGrowth = none := rfl

@[simp] theorem core_qoqNetIncomeGrowth :
    (normalizeRowCore row i pk).qoqNetIncomeGrowth = none := rfl

@[simp] theorem core_yoyRevenueGrowth : (normalizeRowCore row i pk).yoyRevenueGrowth = none := rfl

@[simp] theorem core_yoyNetIncomeGrowth :
    (normalizeRowCore row i pk).yoyNetIncomeGrowth = none := rfl

end CoreProjections

/-! ### Projection lemmas for `enrichRow` -/

section EnrichProjections

variable (arr : List ProcessedDataRow) (i : Nat) (cur : ProcessedDataRow)

@[simp] theorem enrichRow_id : (enrichRow arr i cur).id = cur.id := rfl

@[simp] theorem enrichRow_Quarter : (enrichRow arr i cur).Quarter = cur.Quarter := rfl

@[simp] theorem enrichRow_Year : (enrichRow arr i cur).Year = cur.Year := rfl

@[simp] theorem enrichRow_quarterIndex : (enrichRow arr i cur).quarterIndex = cur.quarterIndex :=
  rfl

@[simp] theorem enrichRow_sortKey : (enrichRow arr i cur).sortKey = cur.sortKey := rfl

@[simp] theorem enrichRow_Region : (enrichRow arr i cur).Region = cur.Region := rfl

@[simp] theorem enrichRow_Product : (enrichRow arr i cur).Product = cur.Product := rfl

@[simp] theorem enrichRow_Revenue : (enrichRow arr i cur).Revenue = cur.Revenue := rfl

@[simp] theorem enrichRow_COGS : (enrichRow arr i cur).COGS = cur.COGS := rfl

@[simp] theorem enrichRow_OPEX : (enrichRow arr i cur).OPEX = cur.OPEX := rfl

@[simp] theorem enrichRow_NCA :
    (enrichRow arr i cur).Non_Cash_Adjustments = cur.Non_Cash_Adjustments := rfl

@[simp] theorem enrichRow_NetIncome : (enrichRow arr i cur).NetIncome = cur.NetIncome := rfl

@[simp] theorem enrichRow_plan_Revenue :
    (enrichRow arr i cur).plan_Revenue = cur.plan_Revenue := rfl

@[simp] theorem enrichRow_plan_COGS : (enrichRow arr i cur).plan_COGS = cur.plan_COGS := rfl

@[simp] theorem enrichRow_plan_OPEX : (enrichRow arr i cur).plan_OPEX = cur.plan_OPEX := rfl

@[simp] theorem enrichRow_plan_NCA :
    (enrichRow arr i cur).plan_Non_Cash_Adjustments = cur.plan_Non_Cash_Adjustments := rfl

@[simp] theorem enrichRow_plan_NetIncome :
    (enrichRow arr i cur).plan_NetIncome = cur.plan_NetIncome := rfl

@[simp] theorem enrichRow_grossProfit : (enrichRow arr i cur).grossProfit = cur.grossProfit := rfl

@[simp] theorem enrichRow_grossMargin : (enrichRow arr i cur).grossMargin = cur.grossMargin := rfl

@[simp] theorem enrichRow_opexMargin : (enrichRow arr i cur).opexMargin = cur.opexMargin := rfl

@[simp] theorem enrichRow_EBITDA : (enrichRow arr i cur).EBITDA = cur.EBITDA := rfl

@[simp] theorem enrichRow_EBITDA_Margin :
    (enrichRow arr i cur).EBITDA_Margin = cur.EBITDA_Margin := rfl

@[simp] theorem enrichRow_netMargin : (enrichRow arr i cur).netMargin = cur.netMargin := rfl

@[simp] theorem enrichRow_revVarAbs : (enrichRow arr i cur).revVarAbs = cur.revVarAbs := rfl

@[simp] theorem enrichRow_revVarPerc : (enrichRow arr i cur).revVarPerc = cur.revVarPerc := rfl

@[simp] theorem enrichRow_cogsVarAbs : (enrichRow arr i cur).cogsVarAbs = cur.cogsVarAbs := rfl

@[simp] theorem enrichRow_cogsVarPerc : (enrichRow arr i cur).cogsVarPerc = cur.cogsVarPerc := rfl

@[simp] theorem enrichRow_opexVarAbs : (enrichRow arr i cur).opexVarAbs = cur.opexVarAbs := rfl

@[simp] theorem enrichRow_opexVarPerc : (enrichRow arr i cur).opexVarPerc = cur.opexVarPerc := rfl

@[simp] theorem enrichRow_ebitdaPlan : (enrichRow arr i cur).ebitdaPlan = cur.ebitdaPlan := rfl

@[simp] theorem enrichRow_ebitdaVarAbs :
    (enrichRow arr i cur).ebitdaVarAbs = cur.ebitdaVarAbs := rfl

@[simp] theorem enrichRow_ebitdaVarPerc :
    (enrichRow arr i cur).ebitdaVarPerc = cur.ebitdaVarPerc := rfl

@[simp] theorem enrichRow_netIncomeVarAbs :
    (enrichRow arr i cur).netIncomeVarAbs = cur.netIncomeVarAbs := rfl

@[simp] theorem enrichRow_netIncomeVarPerc :
    (enrichRow arr i cur).netIncomeVarPerc = cur.netIncomeVarPerc := rfl

theorem enrichRow_qoqRevenueGrowth : (enrichRow arr i cur).qoqRevenueGrowth =
    (match (if i = 0 then none else arr[i - 1]?) with
      | some p =>
        if p.Revenue.eqZero then none
        else some ((cur.Revenue - p.Revenue) / p.Revenue * JSNum.num 100)
      | none => none) := rfl

theorem enrichRow_qoqNetIncomeGrowth : (enrichRow arr i cur).qoqNetIncomeGrowth =
    (match (if i = 0 then none else arr[i - 1]?) with
      | some p =>
        if p.NetIncome.eqZero then none
        else some ((cur.NetIncome - p.NetIncome) / p.NetIncome * JSNum.num 100)
      | none => none) := rfl

theorem enrichRow_yoyRevenueGrowth : (enrichRow arr i cur).yoyRevenueGrowth =
    (match arr.find? (fun d =>
        d.Year == cur.Year - 1 && d.quarterIndex == cur.quarterIndex &&
        d.Region == cur.Region && d.Product == cur.Product) with
      | some p =>
        if p.Revenue.eqZero then none
        else some ((cur.Revenue - p.Revenue) / p.Revenue * JSNum.num 100)
      | none => none) := rfl

theorem enrichRow_yoyNetIncomeGrowth : (enrichRow arr i cur).yoyNetIncomeGrowth =
    (match arr.find? (fun d =>
        d.Year == cur.Year - 1 && d.quarterIndex == cur.quarterIndex &&
        d.Region == cur.Region && d.Product == cur.Product) with
      | some p =>
        if p.NetIncome.eqZero then none
        else some ((cur.NetIncome - p.NetIncome) / p.NetIncome * JSNum.num 100)
      | none => none) := rfl

end EnrichProjections

/-! ### Pipeline-level lemmas -/

theorem parseQuarter_error {s : String} (h : quarterPattern s = false) :
    parseQuarter s = Except.error (quarterError s) := by
  unfold quarterPattern at h
  unfold parseQuarter
  cases haux : parseQuarterAux s.data with
  | none => rfl
  | some pk => rw [haux] at h; exact Bool.noConfusion h

theorem parseQuarter_ok_iff (s : String) :
    (∃ pk, parseQuarter s = Except.ok pk) ↔ quarterPattern s = true := by
  unfold quarterPattern parseQuarter
  cases haux : parseQuarterAux s.data with
  | none => simp
  | some pk => simp

theorem parseQuarterAux_sortKey :
    ∀ {cs : List Char} {pk : PeriodKey}, parseQuarterAux cs = some pk →
      pk.sortKey = (pk.year : ℚ) + (pk.quarterIndex : ℚ) / 4 := by
  intro cs pk h
  unfold parseQuarterAux at h
  split at h
  · split at h
    · cases h
      simp
    · exact Option.noConfusion h
  · exact Option.noConfusion h

theorem parseQuarter_sortKey {s : String} {pk : PeriodKey}
    (h : parseQuarter s = Except.ok pk) :
    pk.sortKey = (pk.year : ℚ) + (pk.quarterIndex : ℚ) / 4 := by
  unfold parseQuarter at h
  split at h
  next pk' heq =>
    cases h
    exact parseQuarterAux_sortKey heq
  next => exact Except.noConfusion h

/-! Basic facts about `normalizeAll` and `processFinancialData`. -/

theorem normalizeRow_ok_iff (r : RawDataRow) (i : Nat) :
    (∃ x, normalizeRow r i = Except.ok x) ↔ quarterPattern r.Quarter = true := by
  rw [← parseQuarter_ok_iff]
  unfold normalizeRow
  constructor
  · rintro ⟨x, hx⟩
    cases hpk : parseQuarter r.Quarter with
    | ok pk => exact ⟨pk, rfl⟩
    | error e => rw [hpk] at hx; exact Except.noConfusion hx
  · rintro ⟨pk, hpk⟩
    exact ⟨normalizeRowCore r i pk, by rw [hpk]; rfl⟩

theorem normalizeRow_error {r : RawDataRow} {i : Nat}
    (h : quarterPattern r.Quarter = false) :
    normalizeRow r i = Except.error (quarterError r.Quarter) := by
  unfold normalizeRow
  rw [parseQuarter_error h]
  rfl

theorem normalizeAll_ok_length :
    ∀ {rows : List RawDataRow} {i : Nat} {l : List ProcessedDataRow},
      normalizeAll rows i = Except.ok l → l.length = rows.length := by
  intro rows
  induction rows with
  | nil => intro i l h; cases h; rfl
  | cons r rs ih =>
    intro i l h
    unfold normalizeAll at h
    split at h
    · exact Except.noConfusion h
    · split at h
      · exact Except.noConfusion h
      · cases h
        simp only [List.length_cons]
        rw [ih (by assumption)]

theorem normalizeAll_ok_iff (rows : List RawDataRow) (i : Nat) :
    (∃ l, normalizeAll rows i = Except.ok l) ↔
      ∀ r ∈ rows, quarterPattern r.Quarter = true := by
  induction rows generalizing i with
  | nil => simp [normalizeAll]
  | cons r rs ih =>
    constructor
    · rintro ⟨l, hl⟩
      unfold normalizeAll at hl
      split at hl
      · exact Except.noConfusion hl
      · split at hl
        · exact Except.noConfusion hl
        · intro x hx
          rcases List.mem_cons.mp hx with rfl | hx
          · exact (normalizeRow_ok_iff x i).mp ⟨_, by assumption⟩
          · exact (ih (i + 1)).mp ⟨_, by assumption⟩ x hx
    · intro h
      obtain ⟨hd, hhd⟩ := (normalizeRow_ok_iff r i).mpr (h r (List.mem_cons_self r rs))
      obtain ⟨tl, htl⟩ := (ih (i + 1)).mpr (fun x hx => h x (List.mem_cons_of_mem r hx))
      exact ⟨hd :: tl, by unfold normalizeAll; rw [hhd, htl]⟩

theorem normalizeAll_error :
    ∀ {rows : List RawDataRow} {i : Nat} {e : String},
      normalizeAll rows i = Except.error e →
      ∃ r ∈ rows, quarterPattern r.Quarter = false ∧ e = quarterError r.Quarter := by
  intro rows
  induction rows with
  | nil => intro i e h; exact Except.noConfusion h
  | cons r rs ih =>
    intro i e h
    unfold normalizeAll at h
    split at h
    next e' heq =>
      cases h
      have hq : quarterPattern r.Quarter = false := by
        by_contra hc
        obtain ⟨x, hx⟩ := (normalizeRow_ok_iff r i).mpr (Bool.eq_false_iff.not_left.mp hc)
        rw [hx] at heq
        exact Except.noConfusion heq
      refine ⟨r, List.mem_cons_self r rs, hq, ?_⟩
      rw [normalizeRow_error hq] at heq
      cases heq
      rfl
    next hd heq =>
      split at h
      next e' heq2 =>
        cases h
        obtain ⟨x, hx, h1, h2⟩ := ih heq2
        exact ⟨x, List.mem_cons_of_mem r hx, h1, h2⟩
      next => exact Except.noConfusion h

theorem normalizeAll_mem :
    ∀ {rows : List RawDataRow} {i : Nat} {l : List ProcessedDataRow},
      normalizeAll rows i = Except.ok l → ∀ {x}, x ∈ l →
      ∃ r j pk, r ∈ rows ∧ parseQuarter r.Quarter = Except.ok pk ∧
        x = normalizeRowCore r j pk := by
  intro rows
  induction rows with
  | nil => intro i l h x hx; cases h; simp at hx
  | cons r rs ih =>
    intro i l h x hx
    unfold normalizeAll at h
    split at h
    · exact Except.noConfusion h
    next hd heq =>
      split at h
      · exact Except.noConfusion h
      next tl heq2 =>
        cases h
        rcases List.mem_cons.mp hx with rfl | hx2
        · unfold normalizeRow at heq
          cases hpk : parseQuarter r.Quarter with
          | error e => rw [hpk] at heq; exact Except.noConfusion heq
          | ok pk =>
            rw [hpk] at heq
            cases heq
            exact ⟨r, i, pk, List.mem_cons_self r rs, hpk, rfl⟩
        · obtain ⟨r', j, pk, hr, h1, h2⟩ := ih heq2 hx2
          exact ⟨r', j, pk, List.mem_cons_of_mem r hr, h1, h2⟩

theorem processFinancialData_eq_ok {rows : List RawDataRow} {out : List ProcessedDataRow}
    (h : processFinancialData rows = Except.ok out) :
    ∃ nl, normalizeAll rows 0 = Except.ok nl ∧ out = enrich (nl.mergeSort bySortKey) := by
  unfold processFinancialData at h
  split at h
  · exact Except.noConfusion h
  next nl heq =>
    cases h
    exact ⟨nl, heq, rfl⟩

theorem processFinancialData_ok_iff (rows : List RawDataRow) :
    (∃ out, processFinancialData rows = Except.ok out) ↔
      ∀ r ∈ rows, quarterPattern r.Quarter = true := by
  rw [← normalizeAll_ok_iff rows 0]
  constructor
  · rintro ⟨out, hout⟩
    obtain ⟨nl, h1, -⟩ := processFinancialData_eq_ok hout
    exact ⟨nl, h1⟩
  · rintro ⟨nl, hnl⟩
    exact ⟨_, by unfold processFinancialData; rw [hnl]⟩

theorem processFinancialData_error {rows : List RawDataRow} {e : String}
    (h : processFinancialData rows = Except.error e) :
    ∃ r ∈ rows, quarterPattern r.Quarter = false ∧ e = quarterError r.Quarter := by
  unfold processFinancialData at h
  split at h
  next e' heq =>
    cases h
    exact normalizeAll_error heq
  · exact Except.noConfusion h

/-! Facts about `enrich` and the sort. -/

@[simp] theorem length_enrich (arr : List ProcessedDataRow) :
    (enrich arr).length = arr.length := by
  simp [enrich]

theorem enrich_getElem? (arr : List ProcessedDataRow) (i : Nat) :
    (enrich arr)[i]? = (arr[i]?).map (enrichRow arr i) := by
  simp only [enrich, List.getElem?_map, List.enum, List.getElem?_enumFrom, Nat.zero_add,
    Option.map_map]
  rfl

theorem mem_enrich {arr : List ProcessedDataRow} {x : ProcessedDataRow}
    (hx : x ∈ enrich arr) : ∃ i y, y ∈ arr ∧ x = enrichRow arr i y := by
  simp only [enrich, List.mem_map] at hx
  obtain ⟨⟨i, y⟩, hmem, rfl⟩ := hx
  exact ⟨i, y, List.snd_mem_of_mem_enum hmem, rfl⟩

theorem bySortKey_trans : ∀ a b c, bySortKey a b → bySortKey b c → bySortKey a c := by
  intro a b c
  simp only [bySortKey, decide_eq_true_eq]
  exact le_trans

theorem bySortKey_total : ∀ a b, bySortKey a b || bySortKey b a := by
  intro a b
  simp only [bySortKey, Bool.or_eq_true, decide_eq_true_eq]
  exact le_total _ _

/-- `find?` through an indexed `map`, observed through projections `g`
that ignore the index. -/
theorem find?_enumFrom_map {α β γ : Type _} (F : Nat × α → β) (p : β → Bool) (p0 : α → Bool)
    (g : β → γ) (g0 : α → γ)
    (hp : ∀ i a, p (F (i, a)) = p0 a) (hg : ∀ i a, g (F (i, a)) = g0 a) :
    ∀ (n : Nat) (l : List α),
      (((l.enumFrom n).map F).find? p).map g = (l.find? p0).map g0 := by
  intro n l
  induction l generalizing n with
  | nil => rfl
  | cons a l ih =>
    rw [List.enumFrom_cons, List.map_cons]
    cases hpa : p0 a with
    | true =>
      rw [List.find?_cons_of_pos _ (by rw [hp]; exact hpa),
        List.find?_cons_of_pos _ hpa]
      simp [hg]
    | false =>
      rw [List.find?_cons_of_neg _ (by rw [hp]; simp [hpa]),
        List.find?_cons_of_neg _ (by simp [hpa])]
      exact ih (n + 1)

/-- `filter` through an indexed `map`, observed through projections `g`
that ignore the index. -/
theorem filter_enumFrom_map {α β γ : Type _} (F : Nat × α → β) (p : β → Bool) (p0 : α → Bool)
    (g : β → γ) (g0 : α → γ)
    (hp : ∀ i a, p (F (i, a)) = p0 a) (hg : ∀ i a, g (F (i, a)) = g0 a) :
    ∀ (n : Nat) (l : List α),
      (((l.enumFrom n).map F).filter p).map g = (l.filter p0).map g0 := by
  intro n l
  induction l generalizing n with
  | nil => rfl
  | cons a l ih =>
    rw [List.enumFrom_cons, List.map_cons]
    cases hpa : p0 a with
    | true =>
      rw [List.filter_cons_of_pos (by rw [hp]; exact hpa), List.filter_cons_of_pos hpa]
      simp only [List.map_cons, hg]
      rw [ih (n + 1)]
    | false =>
      rw [List.filter_cons_of_neg (by rw [hp]; simp [hpa]), List.filter_cons_of_neg (by simp [hpa])]
      exact ih (n + 1)

/-! ### Claims -/

/-- Every output row of a successful batch is the enrichment of the
normalization of some input row. -/
theorem mem_processed {rows : List RawDataRow} {out : List ProcessedDataRow}
    (h : processFinancialData rows = Except.ok out) {row : ProcessedDataRow}
    (hrow : row ∈ out) :
    ∃ raw j pk arr i, raw ∈ rows ∧ parseQuarter raw.Quarter = Except.ok pk ∧
      row = enrichRow arr i (normalizeRowCore raw j pk) := by
  obtain ⟨nl, hnl, rfl⟩ := processFinancialData_eq_ok h
  obtain ⟨i, y, hy, rfl⟩ := mem_enrich hrow
  obtain ⟨raw, j, pk, hr, h1, rfl⟩ := normalizeAll_mem hnl (List.mem_mergeSort.mp hy)
  exact ⟨raw, j, pk, _, i, hr, h1, rfl⟩

theorem safeParseFloat_none_iff (v : Option String) :
    safeParseFloat v none = none ↔
      (v = none ∨ ∃ s, v = some s ∧ (isBlank s = true ∨ (jsParseFloat s).isNaN = true)) := by
  cases v with
  | none => simp [safeParseFloat]
  | some s =>
    by_cases h1 : isBlank s
    · simp [safeParseFloat, h1]
    · by_cases h2 : (jsParseFloat s).isNaN
      · simp [safeParseFloat, h1, h2]
      · simp [safeParseFloat, h1, h2]

/-- Sample input batch: one row, no net-income column. -/
def sampleRows : List RawDataRow := [mkRow "Q1-2023" (some "100") (some "40") (some "20")]

/-- The output of the pipeline on `sampleRows`. -/
def sampleOut : List ProcessedDataRow := (processFinancialData sampleRows).toOption.getD []

/-- C1: `processFinancialData` fails iff some input row's quarter label
does not match `Q<1-4>-<4-digit year>`; on failure the error message
carries the offending raw label and the whole batch is rejected (an
`Except.error`, no partial output); a valid label yields year, quarter
index and `sortKey = year + quarterIndex / 4`; `"Q1-2023"` parses to
year 2023, quarter index 1, sortKey `2023.25` and `"2023-Q1"` fails. -/
theorem C1_quarter_gate (rows : List RawDataRow) :
    ((∃ out, processFinancialData rows = Except.ok out) ↔
      ∀ r ∈ rows, quarterPattern r.Quarter = true)
    ∧ (∀ e, processFinancialData rows = Except.error e →
        ∃ r ∈ rows, quarterPattern r.Quarter = false ∧
          e = "Invalid Quarter format: \"" ++ r.Quarter ++ "\". Expected format is \"Q1-2023\".")
    ∧ (∀ s pk, parseQuarter s = Except.ok pk →
        pk.sortKey = (pk.year : ℚ) + (pk.quarterIndex : ℚ) / 4)
    ∧ parseQuarter "Q1-2023" = Except.ok ⟨2023, 1, 2023 + 1 / 4⟩
    ∧ quarterPattern "2023-Q1" = false := by
  refine ⟨processFinancialData_ok_iff rows, ?_, ?_, ?_, ?_⟩
  · intro e he
    obtain ⟨r, hr, h1, h2⟩ := processFinancialData_error he
    exact ⟨r, hr, h1, h2⟩
  · intro s pk h
    exact parseQuarter_sortKey h
  · with_unfolding_all rfl
  · with_unfolding_all rfl

theorem C1_quarter_gate_witness :
    (∃ out,
      processFinancialData [mkRow "Q1-2023" (some "100") (some "40") (some "20")] =
        Except.ok out)
    ∧ (∃ r ∈ [mkRow "2023-Q1" (some "100") (some "40") (some "20")],
        quarterPattern r.Quarter = false ∧
          ("Invalid Quarter format: \"2023-Q1\". Expected format is \"Q1-2023\"." : String) =
            "Invalid Quarter format: \"" ++ r.Quarter ++ "\". Expected format is \"Q1-2023\".") := by
  constructor
  · exact (C1_quarter_gate _).1.mpr (by with_unfolding_all decide)
  · exact (C1_quarter_gate _).2.1 _ (by with_unfolding_all rfl)

/-- C5: for every output row, if the raw net-income field was absent,
blank, or unparseable (exactly the cases where `safeParseFloat` with a
null default yields null), then the output net income is revenue −
cost-of-goods − operating-expense (all after coercion), and otherwise
it is the parsed raw value unchanged. -/
theorem C5_net_income_resolution (rows : List RawDataRow) (out : List ProcessedDataRow)
    (h : processFinancialData rows = Except.ok out) (row : ProcessedDataRow)
    (hrow : row ∈ out) :
    (∃ raw ∈ rows,
      row.Revenue = (safeParseFloat raw.Revenue (some (.num 0))).getD (.num 0) ∧
      row.COGS = (safeParseFloat raw.COGS (some (.num 0))).getD (.num 0) ∧
      row.OPEX = (safeParseFloat raw.OPEX (some (.num 0))).getD (.num 0) ∧
      (safeParseFloat raw.NetIncome none = none →
        row.NetIncome = row.Revenue - row.COGS - row.OPEX) ∧
      (∀ v, safeParseFloat raw.NetIncome none = some v → row.NetIncome = v))
    ∧ (∀ v : Option String, safeParseFloat v none = none ↔
        (v = none ∨ ∃ s, v = some s ∧ (isBlank s = true ∨ (jsParseFloat s).isNaN = true))) := by
  refine ⟨?_, safeParseFloat_none_iff⟩
  obtain ⟨raw, j, pk, arr, i, hr, hpk, rfl⟩ := mem_processed h hrow
  refine ⟨raw, hr, by simp, by simp, by simp, ?_, ?_⟩
  · intro hni
    simp only [enrichRow_NetIncome, enrichRow_Revenue, enrichRow_COGS, enrichRow_OPEX]
    rw [core_NetIncome, hni]
  · intro v hv
    simp only [enrichRow_NetIncome]
    rw [core_NetIncome, hv]

theorem C5_net_income_resolution_witness :
    (∃ row ∈ sampleOut, row.NetIncome = row.Revenue - row.COGS - row.OPEX)
    ∧ sampleOut.map (fun r => (r.NetIncome, r.netMargin)) =
        [(JSNum.num 40, JSNum.num 40)] := by
  have h : processFinancialData sampleRows = Except.ok sampleOut := by
    with_unfolding_all rfl
  obtain ⟨row, hrow⟩ : ∃ row, sampleOut = [row] := ⟨_, by with_unfolding_all rfl⟩
  have hmem : row ∈ sampleOut := by rw [hrow]; exact List.mem_cons_self _ _
  obtain ⟨⟨raw, hr, -, -, -, hderive, -⟩, -⟩ :=
    C5_net_income_resolution sampleRows sampleOut h row hmem
  have hraw : raw = mkRow "Q1-2023" (some "100") (some "40") (some "20") := by
    simpa [sampleRows] using hr
  refine ⟨⟨row, hmem, hderive (by rw [hraw]; rfl)⟩, by with_unfolding_all rfl⟩

/-- C7: for every output row whose coerced revenue is exactly 0, all
four margin percentages are exactly 0 (a finite number, not NaN or an
error); for non-zero revenue each margin is the corresponding numerator
divided by revenue times 100. -/
theorem C7_margin_zero_safety (rows : List RawDataRow) (out : List ProcessedDataRow)
    (h : processFinancialData rows = Except.ok out) (row : ProcessedDataRow)
    (hrow : row ∈ out) :
    (row.Revenue = JSNum.num 0 →
      row.grossMargin = JSNum.num 0 ∧ row.opexMargin = JSNum.num 0 ∧
      row.EBITDA_Margin = JSNum.num 0 ∧ row.netMargin = JSNum.num 0)
    ∧ (row.Revenue.eqZero = false →
      row.grossMargin = row.grossProfit / row.Revenue * JSNum.num 100 ∧
      row.opexMargin = row.OPEX / row.Revenue * JSNum.num 100 ∧
      row.EBITDA_Margin = row.EBITDA / row.Revenue * JSNum.num 100 ∧
      row.netMargin = row.NetIncome / row.Revenue * JSNum.num 100) := by
  obtain ⟨raw, j, pk, arr, i, hr, hpk, rfl⟩ := mem_processed h hrow
  simp only [enrichRow_Revenue, enrichRow_grossMargin, enrichRow_opexMargin,
    enrichRow_EBITDA_Margin, enrichRow_netMargin, enrichRow_grossProfit, enrichRow_OPEX,
    enrichRow_EBITDA, enrichRow_NetIncome]
  constructor
  · intro h0
    have hz : (normalizeRowCore raw j pk).Revenue.eqZero = true := by
      rw [h0]; rfl
    rw [core_grossMargin, core_opexMargin, core_EBITDA_Margin, core_netMargin, if_pos hz,
      if_pos hz, if_pos hz, if_pos hz]
    exact ⟨rfl, rfl, rfl, rfl⟩
  · intro hz
    have hz' : ¬ ((normalizeRowCore raw j pk).Revenue.eqZero = true) := by
      simp only [Bool.not_eq_true]
      exact hz
    rw [core_grossMargin, core_opexMargin, core_EBITDA_Margin, core_netMargin, if_neg hz',
      if_neg hz', if_neg hz', if_neg hz']
    exact ⟨rfl, rfl, rfl, rfl⟩

/-- Input batch with a zero-revenue row. -/
def zeroRevRows : List RawDataRow := [mkRow "Q1-2023" (some "0") (some "40") (some "20")]

/-- The output of the pipeline on `zeroRevRows`. -/
def zeroRevOut : List ProcessedDataRow := (processFinancialData zeroRevRows).toOption.getD []

theorem C7_margin_zero_safety_witness :
    ∃ row ∈ zeroRevOut, row.Revenue = JSNum.num 0 ∧
      row.grossMargin = JSNum.num 0 ∧ row.opexMargin = JSNum.num 0 ∧
      row.EBITDA_Margin = JSNum.num 0 ∧ row.netMargin = JSNum.num 0 := by
  have h : processFinancialData zeroRevRows = Except.ok zeroRevOut := by
    with_unfolding_all rfl
  obtain ⟨row, hrow⟩ : ∃ row, zeroRevOut = [row] := ⟨_, by with_unfolding_all rfl⟩
  have hmem : row ∈ zeroRevOut := by rw [hrow]; exact List.mem_cons_self _ _
  have hRev : row.Revenue = JSNum.num 0 := by
    have hmap : zeroRevOut.map (fun r => r.Revenue) = [JSNum.num 0] := by
      with_unfolding_all rfl
    rw [hrow] at hmap
    simpa using hmap
  exact ⟨row, hmem, hRev, (C7_margin_zero_safety zeroRevRows zeroRevOut h row hmem).1 hRev⟩

/-- Common shape of the five actual-vs-plan variance computations. -/
theorem varianceSpec (actual : JSNum) (plan vAbs vPerc : Option JSNum)
    (hPerc : vPerc = (match plan with
      | some p => if p.eqZero then none else some ((actual - p) / p * JSNum.num 100)
      | none => none))
    (hAbs : vAbs = plan.map (fun p => actual - p)) :
    (plan = none → vAbs = none ∧ vPerc = none)
    ∧ (∀ p, plan = some p → vAbs = some (actual - p)
        ∧ (p.eqZero = true → vPerc = none)
        ∧ (p.eqZero = false → vPerc = some ((actual - p) / p * JSNum.num 100))) := by
  subst hAbs hPerc
  constructor
  · rintro rfl
    exact ⟨rfl, rfl⟩
  · rintro p rfl
    refine ⟨rfl, ?_, ?_⟩
    · intro hz
      simp [hz]
    · intro hz
      simp [hz]

/-- C4: for every output row and each of the five metrics (revenue,
cost-of-goods, operating-expense, EBITDA, net income): a null plan
value gives null absolute and percentage variance; a present plan value
gives absolute variance = actual − plan; a present but zero plan value
gives null percentage variance while the absolute variance is still
computed; a present non-zero plan value gives percentage variance =
absolute variance / plan × 100. -/
theorem C4_variance_null_propagation (rows : List RawDataRow) (out : List ProcessedDataRow)
    (h : processFinancialData rows = Except.ok out) (row : ProcessedDataRow)
    (hrow : row ∈ out) :
    ((row.plan_Revenue = none → row.revVarAbs = none ∧ row.revVarPerc = none)
     ∧ (∀ p, row.plan_Revenue = some p → row.revVarAbs = some (row.Revenue - p)
         ∧ (p.eqZero = true → row.revVarPerc = none)
         ∧ (p.eqZero = false →
             row.revVarPerc = some ((row.Revenue - p) / p * JSNum.num 100))))
    ∧ ((row.plan_COGS = none → row.cogsVarAbs = none ∧ row.cogsVarPerc = none)
     ∧ (∀ p, row.plan_COGS = some p → row.cogsVarAbs = some (row.COGS - p)
         ∧ (p.eqZero = true → row.cogsVarPerc = none)
         ∧ (p.eqZero = false →
             row.cogsVarPerc = some ((row.COGS - p) / p * JSNum.num 100))))
    ∧ ((row.plan_OPEX = none → row.opexVarAbs = none ∧ row.opexVarPerc = none)
     ∧ (∀ p, row.plan_OPEX = some p → row.opexVarAbs = some (row.OPEX - p)
         ∧ (p.eqZero = true → row.opexVarPerc = none)
         ∧ (p.eqZero = false →
             row.opexVarPerc = some ((row.OPEX - p) / p * JSNum.num 100))))
    ∧ ((row.ebitdaPlan = none → row.ebitdaVarAbs = none ∧ row.ebitdaVarPerc = none)
     ∧ (∀ p, row.ebitdaPlan = some p → row.ebitdaVarAbs = some (row.EBITDA - p)
         ∧ (p.eqZero = true → row.ebitdaVarPerc = none)
         ∧ (p.eqZero = false →
             row.ebitdaVarPerc = some ((row.EBITDA - p) / p * JSNum.num 100))))
    ∧ ((row.plan_NetIncome = none →
          row.netIncomeVarAbs = none ∧ row.netIncomeVarPerc = none)
     ∧ (∀ p, row.plan_NetIncome = some p → row.netIncomeVarAbs = some (row.NetIncome - p)
         ∧ (p.eqZero = true → row.netIncomeVarPerc = none)
         ∧ (p.eqZero = false →
             row.netIncomeVarPerc = some ((row.NetIncome - p) / p * JSNum.num 100)))) := by
  obtain ⟨raw, j, pk, arr, i, hr, hpk, rfl⟩ := mem_processed h hrow
  refine ⟨?_, ?_, ?_, ?_, ?_⟩
  · simp only [enrichRow_plan_Revenue, enrichRow_revVarAbs, enrichRow_revVarPerc,
      enrichRow_Revenue]
    exact varianceSpec _ _ _ _ (core_revVarPerc raw j pk) (core_revVarAbs raw j pk)
  · simp only [enrichRow_plan_COGS, enrichRow_cogsVarAbs, enrichRow_cogsVarPerc,
      enrichRow_COGS]
    exact varianceSpec _ _ _ _ (core_cogsVarPerc raw j pk) (core_cogsVarAbs raw j pk)
  · simp only [enrichRow_plan_OPEX, enrichRow_opexVarAbs, enrichRow_opexVarPerc,
      enrichRow_OPEX]
    exact varianceSpec _ _ _ _ (core_opexVarPerc raw j pk) (core_opexVarAbs raw j pk)
  · simp only [enrichRow_ebitdaPlan, enrichRow_ebitdaVarAbs, enrichRow_ebitdaVarPerc,
      enrichRow_EBITDA]
    exact varianceSpec _ _ _ _ (core_ebitdaVarPerc raw j pk) (core_ebitdaVarAbs raw j pk)
  · simp only [enrichRow_plan_NetIncome, enrichRow_netIncomeVarAbs,
      enrichRow_netIncomeVarPerc, enrichRow_NetIncome]
    exact varianceSpec _ _ _ _ (core_netIncomeVarPerc raw j pk) (core_netIncomeVarAbs raw j pk)

/-- Input batch with a present plan revenue, a present-but-zero plan
cost-of-goods, and no plan operating-expense. -/
def planRows : List RawDataRow :=
  [⟨"Q1-2023", none, none, some "100", some "40", some "20", none, none, some "50",
    some "0", none, none, none⟩]

/-- The output of the pipeline on `planRows`. -/
def planOut : List ProcessedDataRow := (processFinancialData planRows).toOption.getD []

theorem C4_variance_null_propagation_witness :
    ∃ row ∈ planOut,
      row.revVarAbs = some (row.Revenue - JSNum.num 50) ∧
      row.revVarPerc = some ((row.Revenue - JSNum.num 50) / JSNum.num 50 * JSNum.num 100) ∧
      row.cogsVarAbs = some (row.COGS - JSNum.num 0) ∧
      row.cogsVarPerc = none ∧
      row.opexVarAbs = none ∧ row.opexVarPerc = none := by
  have h : processFinancialData planRows = Except.ok planOut := by
    with_unfolding_all rfl
  obtain ⟨row, hrow⟩ : ∃ row, planOut = [row] := ⟨_, by with_unfolding_all rfl⟩
  have hmem : row ∈ planOut := by rw [hrow]; exact List.mem_cons_self _ _
  have hplans : row.plan_Revenue = some (JSNum.num 50) ∧ row.plan_COGS = some (JSNum.num 0) ∧
      row.plan_OPEX = none := by
    have hmap : planOut.map (fun r => (r.plan_Revenue, r.plan_COGS, r.plan_OPEX)) =
        [(some (JSNum.num 50), some (JSNum.num 0), none)] := by
      with_unfolding_all rfl
    rw [hrow] at hmap
    simpa using hmap
  obtain ⟨hrev, hcogs, hopex⟩ := hplans
  obtain ⟨crev, ccogs, copex, -, -⟩ := C4_variance_null_propagation planRows planOut h row hmem
  obtain ⟨habs, -, hperc⟩ := crev.2 _ hrev
  obtain ⟨habs2, hperc2, -⟩ := ccogs.2 _ hcogs
  obtain ⟨habs3, hperc3⟩ := copex.1 hopex
  exact ⟨row, hmem, habs, hperc (by rfl), habs2, hperc2 (by rfl), habs3, hperc3⟩

theorem safeParseFloat_default_eq {v : Option String} (d : Option JSNum)
    (h : v = none ∨ ∃ s, v = some s ∧ (isBlank s = true ∨ (jsParseFloat s).isNaN = true)) :
    safeParseFloat v d = d := by
  rcases h with rfl | ⟨s, rfl, hs⟩
  · rfl
  · rcases hs with hs | hs
    · simp [safeParseFloat, hs]
    · by_cases hb : isBlank s
      · simp [safeParseFloat, hb]
      · simp [safeParseFloat, hb, hs]

theorem safeParseFloat_parse_eq {s : String} (d : Option JSNum) (h1 : isBlank s = false)
    (h2 : (jsParseFloat s).isNaN = false) :
    safeParseFloat (some s) d = some (jsParseFloat s) := by
  simp [safeParseFloat, h1, h2]

/-- C6: for every output row, each plan component resolves through
`safeParseFloat` with a null default (so absent/blank/unparseable plan
revenue, cost-of-goods and operating-expense are null), except plan
non-cash-adjustments, which falls back to the row's actual
non-cash-adjustments; plan net income is derived as plan revenue − plan
cost-of-goods − plan operating-expense exactly when no explicit plan
net-income parsed and all three components are present, and otherwise
is the explicit parsed value or null; plan-side EBITDA is plan revenue −
plan cost-of-goods − plan operating-expense + plan non-cash-adjustments
when all three components are present and null otherwise. -/
theorem C6_plan_resolution (rows : List RawDataRow) (out : List ProcessedDataRow)
    (h : processFinancialData rows = Except.ok out) (row : ProcessedDataRow)
    (hrow : row ∈ out) :
    ∃ raw ∈ rows,
      row.plan_Revenue = safeParseFloat raw.Plan_Revenue none ∧
      row.plan_COGS = safeParseFloat raw.Plan_COGS none ∧
      row.plan_OPEX = safeParseFloat raw.Plan_OPEX none ∧
      (∀ v : Option String, safeParseFloat v none = none ↔
        (v = none ∨ ∃ s, v = some s ∧ (isBlank s = true ∨ (jsParseFloat s).isNaN = true))) ∧
      ((raw.Plan_Non_Cash_Adjustments = none ∨ ∃ s, raw.Plan_Non_Cash_Adjustments = some s ∧
          (isBlank s = true ∨ (jsParseFloat s).isNaN = true)) →
        row.plan_Non_Cash_Adjustments = row.Non_Cash_Adjustments) ∧
      (∀ s, raw.Plan_Non_Cash_Adjustments = some s → isBlank s = false →
        (jsParseFloat s).isNaN = false → row.plan_Non_Cash_Adjustments = jsParseFloat s) ∧
      (safeParseFloat raw.Plan_NetIncome none = none →
        (∀ pr pc po, row.plan_Revenue = some pr → row.plan_COGS = some pc →
          row.plan_OPEX = some po → row.plan_NetIncome = some (pr - pc - po)) ∧
        ((row.plan_Revenue = none ∨ row.plan_COGS = none ∨ row.plan_OPEX = none) →
          row.plan_NetIncome = none)) ∧
      (∀ v, safeParseFloat raw.Plan_NetIncome none = some v →
        row.plan_NetIncome = some v) ∧
      (∀ pr pc po, row.plan_Revenue = some pr → row.plan_COGS = some pc →
        row.plan_OPEX = some po →
        row.ebitdaPlan = some (pr - pc - po + row.plan_Non_Cash_Adjustments)) ∧
      ((row.plan_Revenue = none ∨ row.plan_COGS = none ∨ row.plan_OPEX = none) →
        row.ebitdaPlan = none) := by
  obtain ⟨raw, j, pk, arr, i, hr, hpk, rfl⟩ := mem_processed h hrow
  refine ⟨raw, hr, by simp, by simp, by simp, safeParseFloat_none_iff, ?_, ?_, ?_, ?_, ?_, ?_⟩
  · intro hcase
    simp only [enrichRow_plan_NCA, enrichRow_NCA, core_plan_NCA]
    rw [safeParseFloat_default_eq _ hcase]
    rfl
  · intro s hs h1 h2
    simp only [enrichRow_plan_NCA, core_plan_NCA]
    rw [hs, safeParseFloat_parse_eq _ h1 h2]
    rfl
  · intro hni
    constructor
    · intro pr pc po hpr hpc hpo
      simp only [enrichRow_plan_Revenue] at hpr
      simp only [enrichRow_plan_COGS] at hpc
      simp only [enrichRow_plan_OPEX] at hpo
      simp only [enrichRow_plan_NetIncome]
      rw [core_plan_NetIncome, hni, hpr, hpc, hpo]
    · rintro (h0 | h0 | h0)
      · simp only [enrichRow_plan_Revenue] at h0
        simp only [enrichRow_plan_NetIncome]
        rw [core_plan_NetIncome, hni, h0]
      · simp only [enrichRow_plan_COGS] at h0
        simp only [enrichRow_plan_NetIncome]
        rw [core_plan_NetIncome, hni, h0]
        cases hR : (normalizeRowCore raw j pk).plan_Revenue with
        | none => rfl
        | some pr => rfl
      · simp only [enrichRow_plan_OPEX] at h0
        simp only [enrichRow_plan_NetIncome]
        rw [core_plan_NetIncome, hni, h0]
        cases hR : (normalizeRowCore raw j pk).plan_Revenue with
        | none => rfl
        | some pr =>
          cases hC : (normalizeRowCore raw j pk).plan_COGS with
          | none => rfl
          | some pc => rfl
  · intro v hv
    simp only [enrichRow_plan_NetIncome]
    rw [core_plan_NetIncome, hv]
  · intro pr pc po hpr hpc hpo
    simp only [enrichRow_plan_Revenue] at hpr
    simp only [enrichRow_plan_COGS] at hpc
    simp only [enrichRow_plan_OPEX] at hpo
    simp only [enrichRow_ebitdaPlan, enrichRow_plan_NCA]
    rw [core_ebitdaPlan, hpr, hpc, hpo]
  · rintro (h0 | h0 | h0)
    · simp only [enrichRow_plan_Revenue] at h0
      simp only [enrichRow_ebitdaPlan]
      rw [core_ebitdaPlan, h0]
    · simp only [enrichRow_plan_COGS] at h0
      simp only [enrichRow_ebitdaPlan]
      rw [core_ebitdaPlan, h0]
      cases hR : (normalizeRowCore raw j pk).plan_Revenue with
      | none => rfl
      | some pr => rfl
    · simp only [enrichRow_plan_OPEX] at h0
      simp only [enrichRow_ebitdaPlan]
      rw [core_ebitdaPlan, h0]
      cases hR : (normalizeRowCore raw j pk).plan_Revenue with
      | none => rfl
      | some pr =>
        cases hC : (normalizeRowCore raw j pk).plan_COGS with
        | none => rfl
        | some pc => rfl

/-- Input batch with all three plan components present, actual
non-cash-adjustments, and no explicit plan net income or plan
non-cash-adjustments. -/
def fullPlanRows : List RawDataRow :=
  [⟨"Q1-2023", none, none, some "100", some "40", some "20", some "5", none, some "90",
    some "35", some "15", none, none⟩]

/-- The output of the pipeline on `fullPlanRows`. -/
def fullPlanOut : List ProcessedDataRow := (processFinancialData fullPlanRows).toOption.getD []

theorem C6_plan_resolution_witness :
    ∃ row ∈ fullPlanOut,
      row.plan_Non_Cash_Adjustments = row.Non_Cash_Adjustments ∧
      row.plan_NetIncome = some (JSNum.num 90 - JSNum.num 35 - JSNum.num 15) ∧
      row.ebitdaPlan =
        some (JSNum.num 90 - JSNum.num 35 - JSNum.num 15 + row.plan_Non_Cash_Adjustments) := by
  have h : processFinancialData fullPlanRows = Except.ok fullPlanOut := by
    with_unfolding_all rfl
  obtain ⟨row, hrow⟩ : ∃ row, fullPlanOut = [row] := ⟨_, by with_unfolding_all rfl⟩
  have hmem : row ∈ fullPlanOut := by rw [hrow]; exact List.mem_cons_self _ _
  have hplans : row.plan_Revenue = some (JSNum.num 90) ∧ row.plan_COGS = some (JSNum.num 35) ∧
      row.plan_OPEX = some (JSNum.num 15) := by
    have hmap : fullPlanOut.map (fun r => (r.plan_Revenue, r.plan_COGS, r.plan_OPEX)) =
        [(some (JSNum.num 90), some (JSNum.num 35), some (JSNum.num 15))] := by
      with_unfolding_all rfl
    rw [hrow] at hmap
    simpa using hmap
  obtain ⟨hpr, hpc, hpo⟩ := hplans
  obtain ⟨raw, hr, -, -, -, -, hncaDef, -, hniDer, -, hebit, -⟩ :=
    C6_plan_resolution fullPlanRows fullPlanOut h row hmem
  have hraw : raw = ⟨"Q1-2023", none, none, some "100", some "40", some "20", some "5", none,
      some "90", some "35", some "15", none, none⟩ := by
    simpa [fullPlanRows] using hr
  refine ⟨row, hmem, hncaDef (by rw [hraw]; exact Or.inl rfl), ?_, ?_⟩
  · exact (hniDer (by rw [hraw]; rfl)).1 _ _ _ hpr hpc hpo
  · exact hebit _ _ _ hpr hpc hpo

/-- C2: every output row's quarter-over-quarter growth (revenue and net
income, independently) is computed against the row at index i − 1 of
the whole sorted sequence, regardless of region or product: null when
i = 0 or when the predecessor's value is zero, and otherwise
(current − previous) / previous × 100. -/
theorem C2_qoq_neighbor (rows : List RawDataRow) (out : List ProcessedDataRow)
    (h : processFinancialData rows = Except.ok out) (i : Nat) (cur : ProcessedDataRow)
    (hc : out[i]? = some cur) :
    cur.qoqRevenueGrowth = (match (if i = 0 then none else out[i - 1]?) with
      | some prev =>
        if prev.Revenue.eqZero then none
        else some ((cur.Revenue - prev.Revenue) / prev.Revenue * JSNum.num 100)
      | none => none)
    ∧ cur.qoqNetIncomeGrowth = (match (if i = 0 then none else out[i - 1]?) with
      | some prev =>
        if prev.NetIncome.eqZero then none
        else some ((cur.NetIncome - prev.NetIncome) / prev.NetIncome * JSNum.num 100)
      | none => none) := by
  obtain ⟨nl, hnl, rfl⟩ := processFinancialData_eq_ok h
  rw [enrich_getElem?] at hc
  obtain ⟨x, hx, hcur⟩ := Option.map_eq_some'.mp hc
  subst hcur
  cases i with
  | zero => exact ⟨rfl, rfl⟩
  | succ j =>
    constructor
    · rw [enrichRow_qoqRevenueGrowth, enrich_getElem?, if_neg (Nat.succ_ne_zero j),
        if_neg (Nat.succ_ne_zero j)]
      cases hp : (nl.mergeSort bySortKey)[j + 1 - 1]? with
      | none => rfl
      | some p => simp
    · rw [enrichRow_qoqNetIncomeGrowth, enrich_getElem?, if_neg (Nat.succ_ne_zero j),
        if_neg (Nat.succ_ne_zero j)]
      cases hp : (nl.mergeSort bySortKey)[j + 1 - 1]? with
      | none => rfl
      | some p => simp

/-- `find?` commutes with `enrich` for predicates that ignore the growth
fields, as observed through revenue and net income. -/
theorem find?_enrich_pair (arr : List ProcessedDataRow) (pred : ProcessedDataRow → Bool)
    (hpred : ∀ i r, pred (enrichRow arr i r) = pred r) :
    ((enrich arr).find? pred).map (fun r => (r.Revenue, r.NetIncome)) =
      (arr.find? pred).map (fun r => (r.Revenue, r.NetIncome)) := by
  unfold enrich List.enum
  exact find?_enumFrom_map _ pred pred _ _ (fun i a => hpred i a) (fun i a => by simp) 0 arr

/-- C3: every output row's year-over-year growth (revenue and net
income) is computed against the first row in sequence order whose year
is the current row's year minus one and whose quarter index, region and
product all match; null when no such row exists or its value is zero,
and otherwise (current − peer) / peer × 100. -/
theorem C3_yoy_match (rows : List RawDataRow) (out : List ProcessedDataRow)
    (h : processFinancialData rows = Except.ok out) (i : Nat) (cur : ProcessedDataRow)
    (hc : out[i]? = some cur) :
    cur.yoyRevenueGrowth = (match out.find? (fun d =>
        d.Year == cur.Year - 1 && d.quarterIndex == cur.quarterIndex &&
        d.Region == cur.Region && d.Product == cur.Product) with
      | some peer =>
        if peer.Revenue.eqZero then none
        else some ((cur.Revenue - peer.Revenue) / peer.Revenue * JSNum.num 100)
      | none => none)
    ∧ cur.yoyNetIncomeGrowth = (match out.find? (fun d =>
        d.Year == cur.Year - 1 && d.quarterIndex == cur.quarterIndex &&
        d.Region == cur.Region && d.Product == cur.Product) with
      | some peer =>
        if peer.NetIncome.eqZero then none
        else some ((cur.NetIncome - peer.NetIncome) / peer.NetIncome * JSNum.num 100)
      | none => none) := by
  obtain ⟨nl, hnl, rfl⟩ := processFinancialData_eq_ok h
  rw [enrich_getElem?] at hc
  obtain ⟨x, hx, hcur⟩ := Option.map_eq_some'.mp hc
  subst hcur
  simp only [enrichRow_Year, enrichRow_quarterIndex, enrichRow_Region, enrichRow_Product,
    enrichRow_Revenue, enrichRow_NetIncome]
  have hfind := find?_enrich_pair (nl.mergeSort bySortKey) (fun d =>
    d.Year == x.Year - 1 && d.quarterIndex == x.quarterIndex &&
    d.Region == x.Region && d.Product == x.Product) (fun j r => by simp)
  rw [enrichRow_yoyRevenueGrowth, enrichRow_yoyNetIncomeGrowth]
  cases hf1 : (enrich (nl.mergeSort bySortKey)).find? (fun d =>
      d.Year == x.Year - 1 && d.quarterIndex == x.quarterIndex &&
      d.Region == x.Region && d.Product == x.Product) with
  | none =>
    cases hf2 : (nl.mergeSort bySortKey).find? (fun d =>
        d.Year == x.Year - 1 && d.quarterIndex == x.quarterIndex &&
        d.Region == x.Region && d.Product == x.Product) with
    | none => exact ⟨rfl, rfl⟩
    | some y2 => rw [hf1, hf2] at hfind; exact Option.noConfusion hfind
  | some y1 =>
    cases hf2 : (nl.mergeSort bySortKey).find? (fun d =>
        d.Year == x.Year - 1 && d.quarterIndex == x.quarterIndex &&
        d.Region == x.Region && d.Product == x.Product) with
    | none => rw [hf1, hf2] at hfind; exact Option.noConfusion hfind
    | some y2 =>
      rw [hf1, hf2] at hfind
      simp at hfind
      show ((if y2.Revenue.eqZero = true then none
          else some ((x.Revenue - y2.Revenue) / y2.Revenue * JSNum.num 100)) =
        (if y1.Revenue.eqZero = true then none
          else some ((x.Revenue - y1.Revenue) / y1.Revenue * JSNum.num 100))) ∧
        ((if y2.NetIncome.eqZero = true then none
          else some ((x.NetIncome - y2.NetIncome) / y2.NetIncome * JSNum.num 100)) =
        (if y1.NetIncome.eqZero = true then none
          else some ((x.NetIncome - y1.NetIncome) / y1.NetIncome * JSNum.num 100)))
      rw [hfind.1, hfind.2]
      exact ⟨rfl, rfl⟩

/-- Input batch with a matching prior-year segment peer (East/Soap) and
one row (West/Soap, 2024) with no prior-year counterpart. -/
def yoyRows : List RawDataRow :=
  [⟨"Q1-2023", some "East", some "Soap", some "100", some "40", some "20", none, none, none,
    none, none, none, none⟩,
   ⟨"Q1-2024", some "East", some "Soap", some "120", some "40", some "20", none, none, none,
    none, none, none, none⟩,
   ⟨"Q1-2024", some "West", some "Soap", some "50", some "10", some "5", none, none, none,
    none, none, none, none⟩]

/-- The output of the pipeline on `yoyRows`. -/
def yoyOut : List ProcessedDataRow := (processFinancialData yoyRows).toOption.getD []

theorem C3_yoy_match_witness :
    ∃ r1 r2, yoyOut[1]? = some r1 ∧ yoyOut[2]? = some r2 ∧
      r1.yoyRevenueGrowth = some (JSNum.num 20) ∧ r2.yoyRevenueGrowth = none := by
  have h : processFinancialData yoyRows = Except.ok yoyOut := by
    with_unfolding_all rfl
  obtain ⟨r1, h1⟩ : ∃ r1, yoyOut[1]? = some r1 := ⟨_, by with_unfolding_all rfl⟩
  obtain ⟨r2, h2⟩ : ∃ r2, yoyOut[2]? = some r2 := ⟨_, by with_unfolding_all rfl⟩
  have hmap : yoyOut.map (fun r => (r.Year, r.quarterIndex, r.Region, r.Product, r.Revenue)) =
      [((2023 : Int), 1, "East", "Soap", JSNum.num 100),
       ((2024 : Int), 1, "East", "Soap", JSNum.num 120),
       ((2024 : Int), 1, "West", "Soap", JSNum.num 50)] := by
    with_unfolding_all rfl
  have e1 := congrArg (fun l => l[1]?) hmap
  have e2 := congrArg (fun l => l[2]?) hmap
  simp only [List.getElem?_map, h1, h2] at e1 e2
  simp at e1 e2
  obtain ⟨hY1, hQ1, hR1, hP1, hRev1⟩ := e1
  obtain ⟨hY2, hQ2, hR2, hP2, hRev2⟩ := e2
  refine ⟨r1, r2, h1, h2, ?_, ?_⟩
  · rw [(C3_yoy_match yoyRows yoyOut h 1 r1 h1).1]
    rw [hY1, hQ1, hR1, hP1, hRev1]
    with_unfolding_all decide
  · rw [(C3_yoy_match yoyRows yoyOut h 2 r2 h2).1]
    rw [hY2, hQ2, hR2, hP2, hRev2]
    with_unfolding_all decide

/-- Input batch of three quarters with revenues 100, 110, 90. -/
def qoqRows : List RawDataRow :=
  [mkRow "Q1-2023" (some "100") (some "40") (some "20"),
   mkRow "Q2-2023" (some "110") (some "40") (some "20"),
   mkRow "Q3-2023" (some "90") (some "40") (some "20")]

/-- The output of the pipeline on `qoqRows`. -/
def qoqOut : List ProcessedDataRow := (processFinancialData qoqRows).toOption.getD []

theorem C2_qoq_neighbor_witness :
    ∃ r0 r1 r2, qoqOut[0]? = some r0 ∧ qoqOut[1]? = some r1 ∧ qoqOut[2]? = some r2 ∧
      r0.qoqRevenueGrowth = none ∧ r1.qoqRevenueGrowth = some (JSNum.num 10) ∧
      r2.qoqRevenueGrowth = some (JSNum.num (-200 / 11)) := by
  have h : processFinancialData qoqRows = Except.ok qoqOut := by
    with_unfolding_all rfl
  obtain ⟨r0, h0⟩ : ∃ r0, qoqOut[0]? = some r0 := ⟨_, by with_unfolding_all rfl⟩
  obtain ⟨r1, h1⟩ : ∃ r1, qoqOut[1]? = some r1 := ⟨_, by with_unfolding_all rfl⟩
  obtain ⟨r2, h2⟩ : ∃ r2, qoqOut[2]? = some r2 := ⟨_, by with_unfolding_all rfl⟩
  refine ⟨r0, r1, r2, h0, h1, h2, ?_, ?_, ?_⟩
  · rw [(C2_qoq_neighbor qoqRows qoqOut h 0 r0 h0).1]
    simp
  · rw [(C2_qoq_neighbor qoqRows qoqOut h 1 r1 h1).1]
    rw [if_neg (Nat.succ_ne_zero 0), h0]
    show (if r0.Revenue.eqZero = true then none
      else some ((r1.Revenue - r0.Revenue) / r0.Revenue * JSNum.num 100)) = some (JSNum.num 10)
    have hrev : r0.Revenue = JSNum.num 100 ∧ r1.Revenue = JSNum.num 110 := by
      have hmap : qoqOut.map (fun r => r.Revenue) =
          [JSNum.num 100, JSNum.num 110, JSNum.num 90] := by
        with_unfolding_all rfl
      have e0 := congrArg (fun l => l[0]?) hmap
      have e1 := congrArg (fun l => l[1]?) hmap
      simp only [List.getElem?_map, h0, h1] at e0 e1
      simp at e0 e1
      exact ⟨e0, e1⟩
    rw [hrev.1, hrev.2]
    with_unfolding_all decide
  · rw [(C2_qoq_neighbor qoqRows qoqOut h 2 r2 h2).1]
    rw [if_neg (Nat.succ_ne_zero 1), h1]
    show (if r1.Revenue.eqZero = true then none
      else some ((r2.Revenue - r1.Revenue) / r1.Revenue * JSNum.num 100)) =
        some (JSNum.num (-200 / 11))
    have hrev : r1.Revenue = JSNum.num 110 ∧ r2.Revenue = JSNum.num 90 := by
      have hmap : qoqOut.map (fun r => r.Revenue) =
          [JSNum.num 100, JSNum.num 110, JSNum.num 90] := by
        with_unfolding_all rfl
      have e1 := congrArg (fun l => l[1]?) hmap
      have e2 := congrArg (fun l => l[2]?) hmap
      simp only [List.getElem?_map, h1, h2] at e1 e2
      simp at e1 e2
      exact ⟨e1, e2⟩
    rw [hrev.1, hrev.2]
    with_unfolding_all decide

/-- C8: on a batch whose quarter labels are all valid, the output has
exactly the length of the input, adjacent output rows have
non-decreasing sort keys, and rows with equal sort key keep their
relative input order (the sort is stable): filtering any tie class of
the output gives the same rows, by id and in the same order, as
filtering the normalized input sequence. -/
theorem C8_ordering (rows : List RawDataRow) (out : List ProcessedDataRow)
    (h : processFinancialData rows = Except.ok out) :
    out.length = rows.length
    ∧ (∀ i a b, out[i]? = some a → out[i + 1]? = some b → a.sortKey ≤ b.sortKey)
    ∧ (∀ nl, normalizeAll rows 0 = Except.ok nl → ∀ k : ℚ,
        (out.filter (fun r => r.sortKey == k)).map (fun r => r.id) =
          (nl.filter (fun r => r.sortKey == k)).map (fun r => r.id)) := by
  obtain ⟨nl0, hnl0, rfl⟩ := processFinancialData_eq_ok h
  refine ⟨?_, ?_, ?_⟩
  · rw [length_enrich, List.length_mergeSort]
    exact normalizeAll_ok_length hnl0
  · intro i a b ha hb
    rw [enrich_getElem?] at ha hb
    obtain ⟨xa, hxa, hae⟩ := Option.map_eq_some'.mp ha
    obtain ⟨xb, hxb, hbe⟩ := Option.map_eq_some'.mp hb
    subst hae
    subst hbe
    simp only [enrichRow_sortKey]
    have hpw := List.sorted_mergeSort bySortKey_trans bySortKey_total nl0
    obtain ⟨hia, hga⟩ := List.getElem?_eq_some.mp hxa
    obtain ⟨hib, hgb⟩ := List.getElem?_eq_some.mp hxb
    have hrel := List.pairwise_iff_get.mp hpw ⟨i, hia⟩ ⟨i + 1, hib⟩ (by simp)
    simp only [List.get_eq_getElem, hga, hgb] at hrel
    exact of_decide_eq_true hrel
  · intro nl hnl k
    have hnn : nl = nl0 := by
      rw [hnl] at hnl0
      exact (Except.ok.injEq _ _).mp hnl0
    subst hnn
    have hmemf : ∀ r ∈ nl.filter (fun r => r.sortKey == k), r.sortKey = k := by
      intro r hr
      simpa using (List.mem_filter.mp hr).2
    have hpwf : (nl.filter (fun r => r.sortKey == k)).Pairwise (fun a b => bySortKey a b) :=
      List.pairwise_of_forall_mem_list (fun a ha b hb => by
        unfold bySortKey
        rw [hmemf a ha, hmemf b hb]
        simp)
    have hsub : List.Sublist (nl.filter (fun r => r.sortKey == k)) (nl.mergeSort bySortKey) :=
      List.sublist_mergeSort bySortKey_trans bySortKey_total hpwf (List.filter_sublist nl)
    have hsub2 : List.Sublist (nl.filter (fun r => r.sortKey == k))
        ((nl.mergeSort bySortKey).filter (fun r => r.sortKey == k)) := by
      have h2 := hsub.filter (fun r => r.sortKey == k)
      rwa [List.filter_eq_self.mpr (fun a ha => (List.mem_filter.mp ha).2)] at h2
    have hperm : List.Perm ((nl.mergeSort bySortKey).filter (fun r => r.sortKey == k))
        (nl.filter (fun r => r.sortKey == k)) :=
      (List.mergeSort_perm nl bySortKey).filter (fun r => r.sortKey == k)
    have heq : nl.filter (fun r => r.sortKey == k) =
        (nl.mergeSort bySortKey).filter (fun r => r.sortKey == k) :=
      hsub2.eq_of_length hperm.length_eq.symm
    have hon : enrich (nl.mergeSort bySortKey) =
        ((nl.mergeSort bySortKey).enumFrom 0).map
          (fun q => enrichRow (nl.mergeSort bySortKey) q.1 q.2) := rfl
    rw [hon, filter_enumFrom_map (fun q => enrichRow (nl.mergeSort bySortKey) q.1 q.2)
      (fun r => r.sortKey == k) (fun r => r.sortKey == k) (fun r => r.id) (fun r => r.id)
      (fun i a => by simp) (fun i a => by simp) 0 (nl.mergeSort bySortKey), ← heq]

/-- Input batch with two distinct periods out of order and a tie (two
rows for the later period, in segments B then A). -/
def stableRows : List RawDataRow :=
  [⟨"Q2-2023", some "B", none, some "1", some "0", some "0", none, none, none, none, none,
    none, none⟩,
   ⟨"Q1-2023", none, none, some "2", some "0", some "0", none, none, none, none, none,
    none, none⟩,
   ⟨"Q2-2023", some "A", none, some "3", some "0", some "0", none, none, none, none, none,
    none, none⟩]

/-- The output of the pipeline on `stableRows`. -/
def stableOut : List ProcessedDataRow := (processFinancialData stableRows).toOption.getD []

theorem C8_ordering_witness :
    stableOut.length = stableRows.length
    ∧ (∃ a b, stableOut[0]? = some a ∧ stableOut[1]? = some b ∧ a.sortKey ≤ b.sortKey)
    ∧ stableOut.map (fun r => r.id) =
        ["Q1-2023-All-All-1", "Q2-2023-B-All-0", "Q2-2023-A-All-2"] := by
  have h : processFinancialData stableRows = Except.ok stableOut := by
    with_unfolding_all rfl
  obtain ⟨a, ha⟩ : ∃ a, stableOut[0]? = some a := ⟨_, by with_unfolding_all rfl⟩
  obtain ⟨b, hb⟩ : ∃ b, stableOut[1]? = some b := ⟨_, by with_unfolding_all rfl⟩
  refine ⟨?_, ⟨a, b, ha, hb, (C8_ordering stableRows stableOut h).2.1 0 a b ha hb⟩, ?_⟩
  · rw [(C8_ordering stableRows stableOut h).1]
  · with_unfolding_all rfl

/-! Lemmas about `jsParseFloat` on digit prefixes. -/

theorem isDigit_not_isWhitespace {c : Char} (h : c.isDigit = true) :
    c.isWhitespace = false := by
  by_contra hw
  rw [Bool.not_eq_false] at hw
  simp only [Char.isWhitespace, Bool.or_eq_true, decide_eq_true_eq] at hw
  rcases hw with ((rfl | rfl) | rfl) | rfl <;> exact absurd h (by decide)

theorem takeWhile_append_of_forall {α : Type _} {p : α → Bool} :
    ∀ (ds junk : List α), (∀ c ∈ ds, p c = true) → (∀ c, junk.head? = some c → p c = false) →
      (ds ++ junk).takeWhile p = ds ∧ (ds ++ junk).dropWhile p = junk := by
  intro ds
  induction ds with
  | nil =>
    intro junk hds hj
    cases junk with
    | nil => exact ⟨rfl, rfl⟩
    | cons c l =>
      have hc : p c = false := hj c rfl
      simp [List.takeWhile_cons, List.dropWhile_cons, hc]
  | cons d ds ih =>
    intro junk hds hj
    have hd : p d = true := hds d (List.mem_cons_self _ _)
    have hrest := ih junk (fun c hc => hds c (List.mem_cons_of_mem _ hc)) hj
    constructor
    · rw [List.cons_append, List.takeWhile_cons_of_pos hd, hrest.1]
    · rw [List.cons_append, List.dropWhile_cons_of_pos hd, hrest.2]

theorem jsParseFloat_mk (cs : List Char) :
    jsParseFloat (String.mk cs) =
      (if (cs.dropWhile Char.isWhitespace).head? = some '+' then
        (parseUnsignedDecimal (cs.dropWhile Char.isWhitespace).tail).getD .nan
      else if (cs.dropWhile Char.isWhitespace).head? = some '-' then
        ((parseUnsignedDecimal (cs.dropWhile Char.isWhitespace).tail).map JSNum.neg).getD .nan
      else (parseUnsignedDecimal (cs.dropWhile Char.isWhitespace)).getD .nan) := rfl

theorem isBlank_jsParseFloat_nan {s : String} (h : isBlank s = true) :
    (jsParseFloat s).isNaN = true := by
  unfold isBlank at h
  rw [List.all_eq_true] at h
  have hd : s.data.dropWhile Char.isWhitespace = [] :=
    List.dropWhile_eq_nil_iff.mpr h
  unfold jsParseFloat
  rw [hd]
  rfl

/-- C10: the numeric coercion parses the longest leading decimal-number
prefix of the (whitespace-trimmed) raw string, ignoring trailing
characters — a digit run followed by arbitrary junk parses to the
digits' value, `"12abc"` coerces to 12 and `"3.5 SAR"` to 3.5 for any
default — and the default is used only when `parseFloat` finds no
leading number at all; the coercion is a total function (never
throws). -/
theorem C10_leading_prefix_coercion :
    (∀ (ds junk : List Char), ds ≠ [] → (∀ c ∈ ds, c.isDigit = true) →
      (∀ c, junk.head? = some c →
        c.isDigit = false ∧ c ≠ '.' ∧ c ≠ 'e' ∧ c ≠ 'E') →
      jsParseFloat (String.mk (ds ++ junk)) = JSNum.num (digitsToNat ds))
    ∧ (∀ (s : String) (d : Option JSNum), (jsParseFloat s).isNaN = false →
        safeParseFloat (some s) d = some (jsParseFloat s))
    ∧ (∀ (s : String) (d : Option JSNum), (jsParseFloat s).isNaN = true →
        safeParseFloat (some s) d = d)
    ∧ (∀ d, safeParseFloat (some "12abc") d = some (JSNum.num 12))
    ∧ (∀ d, safeParseFloat (some "3.5 SAR") d = some (JSNum.num (7 / 2))) := by
  have hpass : ∀ (s : String) (d : Option JSNum), (jsParseFloat s).isNaN = false →
      safeParseFloat (some s) d = some (jsParseFloat s) := by
    intro s d hn
    have hb : isBlank s = false := by
      by_contra hc
      rw [Bool.not_eq_false] at hc
      rw [isBlank_jsParseFloat_nan hc] at hn
      exact Bool.noConfusion hn
    simp [safeParseFloat, hb, hn]
  refine ⟨?_, hpass, ?_, ?_, ?_⟩
  · intro ds junk hne hds hj
    obtain ⟨d0, ds', rfl⟩ : ∃ d0 ds', ds = d0 :: ds' := by
      cases ds with
      | nil => exact absurd rfl hne
      | cons a l => exact ⟨a, l, rfl⟩
    have hd0 : d0.isDigit = true := hds d0 (List.mem_cons_self _ _)
    have hdw : d0.isWhitespace = false := isDigit_not_isWhitespace hd0
    have htd := takeWhile_append_of_forall (d0 :: ds') junk hds
      (fun c hc => (hj c hc).1)
    rw [List.cons_append] at htd
    rw [List.cons_append, jsParseFloat_mk,
      List.dropWhile_cons_of_neg (by simp [hdw]), List.head?_cons,
      if_neg (by intro hc; rw [Option.some.injEq] at hc; subst hc; exact absurd hd0 (by decide)),
      if_neg (by intro hc; rw [Option.some.injEq] at hc; subst hc; exact absurd hd0 (by decide))]
    simp only [parseUnsignedDecimal]
    rw [if_neg (by
      intro hc
      have h8 : (d0 :: (ds' ++ junk)).take 8 = d0 :: (ds' ++ junk).take 7 := by
        simp [List.take_succ_cons]
      rw [h8] at hc
      have := (List.cons.injEq _ _ _ _).mp hc
      rw [this.1] at hd0
      exact absurd hd0 (by decide))]
    rw [htd.1, htd.2]
    have hdot : ¬ (junk.head? = some '.') := by
      intro hc
      exact (hj _ hc).2.1 rfl
    rw [if_neg hdot, if_neg hdot]
    have hexp : expValue junk = 0 := by
      unfold expValue
      rw [if_neg]
      simp only [Bool.or_eq_true, decide_eq_true_eq]
      rintro (hc | hc)
      · exact (hj _ hc).2.2.1 rfl
      · exact (hj _ hc).2.2.2 rfl
    rw [if_neg (by
      rintro ⟨hc, -⟩
      exact List.noConfusion hc)]
    rw [hexp]
    simp only [Option.getD_some, JSNum.num.injEq]
    norm_num [digitsToNat]
  · intro s d hn
    by_cases hb : isBlank s
    · simp [safeParseFloat, hb]
    · simp [safeParseFloat, hb, hn]
  · intro d
    rw [hpass _ d (by with_unfolding_all decide)]
    with_unfolding_all decide
  · intro d
    rw [hpass _ d (by with_unfolding_all decide)]
    with_unfolding_all decide

theorem C10_leading_prefix_coercion_witness :
    jsParseFloat (String.mk ['1', '2', 'a', 'b', 'c']) = JSNum.num (digitsToNat ['1', '2'])
    ∧ safeParseFloat (some "12abc") none = some (JSNum.num 12)
    ∧ safeParseFloat (some "3.5 SAR") none = some (JSNum.num (7 / 2))
    ∧ safeParseFloat (some "zzz") (some (JSNum.num 7)) = some (JSNum.num 7) := by
  refine ⟨?_, C10_leading_prefix_coercion.2.2.2.1 none,
    C10_leading_prefix_coercion.2.2.2.2 none,
    C10_leading_prefix_coercion.2.2.1 "zzz" _ (by with_unfolding_all decide)⟩
  exact C10_leading_prefix_coercion.1 ['1', '2'] ['a', 'b', 'c'] (by decide)
    (by decide) (by intro c hc; cases hc; decide)

/-- C9: the code violates the claimed output invariant.  JavaScript
`parseFloat` accepts `"Infinity"` as a non-finite number and
`safeParseFloat` guards only NaN, so the batch succeeds and the output
row's revenue is not finite, although the claim requires every numeric
field of every output row to be a finite number or explicit null for
all raw string contents.  (IEEE-754 arithmetic can also overflow
derived fields to Infinity from finite-coercing inputs, e.g.
`1e308 - (-1e308)`; this model's exact rational arithmetic does not
capture that, so no finiteness invariant is claimed here — only this
concrete violation, which the model does evaluate faithfully.) -/
theorem C9_counterexample :
    (processFinancialData
        [mkRow "Q1-2023" (some "Infinity") (some "40") (some "20")]).toOption.map
      (List.map (fun r => r.Revenue.isFinite)) = some [false] := by
  with_unfolding_all rfl

end FMCG
